import Mathlib

/-!
# Verification of the water-rocket simulator server

Shallow embedding of `src/server.py`.

Modelling conventions:
* Python floats are modelled as real numbers (`ℝ`); IEEE rounding is
  abstracted away, the arithmetic expressions are translated literally.
* `math.sqrt` is `Real.sqrt`, `math.pi` is `Real.pi`, `math.hypot x y` is
  `Real.sqrt (x^2 + y^2)`, and the float power `a ** b` (with positive base
  in every reachable call) is `Real.rpow`.
* Python's `round(x, nd)` (round-half-to-even on the scaled value) is
  `roundTo nd`.
* The `while t < t_max` loop is modelled by a fuel-indexed recursion `loop`;
  the fuel `12000 = t_max / dt` is proved sufficient (the loop condition is
  false once the fuel is consumed), so the fuel never truncates the run.
* The WebSocket `ConnectionManager` registry is a `List` over an abstract
  viewer type with decidable equality; a delivery failure of
  `connection.send_json` in `broadcast` is modelled by a per-call predicate
  `fails : V → Bool`.
* An inbound frame on `/ws` is a JSON value `JVal`; the Python
  `AttributeError` raised by `data.get(...)` on a non-dict frame (which is
  caught by the outer `except Exception` and terminates the connection
  handler) is modelled by `Except.error`.
-/

namespace WaterRocket

/-- Python's banker's rounding of a real to an integer:
nearest integer, ties to the even one. -/
noncomputable def roundHalfEven (x : ℝ) : ℤ :=
  if Int.fract x < 1/2 then ⌊x⌋
  else if 1/2 < Int.fract x then ⌊x⌋ + 1
  else if Even ⌊x⌋ then ⌊x⌋ else ⌊x⌋ + 1

/-- `round(x, nd)` from Python, on reals. -/
noncomputable def roundTo (nd : ℕ) (x : ℝ) : ℝ :=
  (roundHalfEven (x * 10 ^ nd) : ℝ) / 10 ^ nd

/-- Python's `max` over a nonempty list (`0` for `[]`, which the code
guards against). -/
def pyMax : List ℝ → ℝ
  | [] => 0
  | a :: l => l.foldl max a

/-- `LaunchParams` (pydantic model, lines 40-50 of server.py). -/
structure LaunchParams where
  bottle_volume_l : ℝ
  bottle_diameter_cm : ℝ
  nozzle_diameter_cm : ℝ
  water_volume_l : ℝ
  air_pressure_psi : ℝ
  soap_amount : ℝ
  wind_speed_ms : ℝ
  temperature_c : ℝ
  player : String
  events_enabled : Bool

-- Constants of simulate_flight (lines 71-74, 92-93, 97).
def rho_water : ℝ := 1000
def rho_air : ℝ := 1.225
def g : ℝ := 9.81
def Cd : ℝ := 0.5
def dt : ℝ := 0.005
def t_max : ℝ := 60
def gamma : ℝ := 1.4

-- Derived initial quantities (lines 76-87, 107).
noncomputable def bottle_volume (p : LaunchParams) : ℝ := p.bottle_volume_l / 1000
noncomputable def water_volume (p : LaunchParams) : ℝ :=
  max (min (p.water_volume_l / 1000) (bottle_volume p)) 0
noncomputable def nozzle_area (p : LaunchParams) : ℝ :=
  Real.pi * ((p.nozzle_diameter_cm / 100) / 2) ^ 2
noncomputable def bottle_area (p : LaunchParams) : ℝ :=
  Real.pi * ((p.bottle_diameter_cm / 100) / 2) ^ 2
noncomputable def p_abs_init (p : LaunchParams) : ℝ := p.air_pressure_psi * 6894.76 + 101325
noncomputable def dry_mass (p : LaunchParams) : ℝ := 0.15 + 0.1 * p.soap_amount
noncomputable def m_water_init (p : LaunchParams) : ℝ := rho_water * water_volume p
noncomputable def init_air_volume (p : LaunchParams) : ℝ := bottle_volume p - water_volume p
noncomputable def m_air_init (p : LaunchParams) : ℝ := max (init_air_volume p) 0 * rho_air
noncomputable def mass_init (p : LaunchParams) : ℝ :=
  dry_mass p + m_water_init p + m_air_init p
noncomputable def air_vol_init (p : LaunchParams) : ℝ := max (init_air_volume p) 1e-9

/-- `pressure_water_phase` (lines 98-101). -/
noncomputable def pressure_water_phase (p0 air_vol_now a_init : ℝ) : ℝ :=
  if a_init ≤ 0 then 101325
  else 101325 + (p0 - 101325) * Real.rpow (a_init / max air_vol_now 1e-9) gamma

/-- `pressure_air_phase` (lines 103-104). -/
noncomputable def pressure_air_phase (p0 vol_ratio : ℝ) : ℝ :=
  p0 * Real.rpow vol_ratio (-gamma)

/-- The mutable simulation state of one run of `simulate_flight`. -/
structure SimState where
  x : ℝ
  y : ℝ
  vx : ℝ
  vy : ℝ
  t : ℝ
  m_water : ℝ
  m_air : ℝ
  mass : ℝ
  p_abs : ℝ
  thrust : ℝ
  airborne : Bool
  times : List ℝ
  xs : List ℝ
  ys : List ℝ

-- Per-step quantities of the water thrust phase (lines 114-123).
noncomputable def air_vol_now (p : LaunchParams) (s : SimState) : ℝ :=
  bottle_volume p - s.m_water / rho_water
noncomputable def p_abs_w (p : LaunchParams) (s : SimState) : ℝ :=
  pressure_water_phase (p_abs_init p) (air_vol_now p s) (air_vol_init p)
noncomputable def dp_water (p : LaunchParams) (s : SimState) : ℝ :=
  max (p_abs_w p s - 101325) 0
noncomputable def thrust_w (p : LaunchParams) (s : SimState) : ℝ :=
  nozzle_area p * Real.sqrt (2 * dp_water p s * rho_water)
noncomputable def m_dot_w (p : LaunchParams) (s : SimState) : ℝ :=
  rho_water * nozzle_area p * Real.sqrt (2 * dp_water p s / rho_water)
noncomputable def dm_w (p : LaunchParams) (s : SimState) : ℝ :=
  min (m_dot_w p s * dt) (max (s.m_water * 0.25) 1e-6)

-- Per-step quantities of the air thrust phase (lines 128-136); they depend
-- only on the parameters (vol_ratio is fixed for the run).
noncomputable def p_air_val (p : LaunchParams) : ℝ :=
  pressure_air_phase (p_abs_init p) (bottle_volume p / air_vol_init p)
noncomputable def dp_air (p : LaunchParams) : ℝ := max (p_air_val p - 101325) 0
noncomputable def m_dot_a (p : LaunchParams) : ℝ :=
  nozzle_area p * rho_air * Real.sqrt (2 * dp_air p / rho_air)
noncomputable def dm_a (p : LaunchParams) (s : SimState) : ℝ :=
  min (m_dot_a p * dt) (max (s.m_air * 0.25) 1e-6)

/-- The thrust-phase part of one loop iteration (lines 112-142): selects the
water phase, the air phase or the ballistic phase, updates the propellant
masses and the total mass, and records the thrust for this step. -/
noncomputable def stepThrust (p : LaunchParams) (s : SimState) : SimState :=
  if 1e-8 < s.m_water ∧ 0 < nozzle_area p then
    if 0 < dp_water p s then
      { s with thrust := thrust_w p s, p_abs := p_abs_w p s,
               m_water := s.m_water - dm_w p s,
               mass := dry_mass p + (s.m_water - dm_w p s) + s.m_air }
    else
      { s with thrust := 0, p_abs := p_abs_w p s, m_water := 0,
               mass := dry_mass p + s.m_air }
  else if 1e-8 < s.m_air ∧ 0 < nozzle_area p then
    if 0 < dp_air p then
      { s with thrust := nozzle_area p * dp_air p,
               m_air := s.m_air - dm_a p s,
               mass := dry_mass p + (s.m_air - dm_a p s) }
    else
      { s with thrust := 0, m_air := 0, mass := dry_mass p }
  else
    { s with thrust := 0, mass := dry_mass p }

-- Drag and kinematics of one loop iteration (lines 144-166).
noncomputable def v_rel_x (p : LaunchParams) (s : SimState) : ℝ := s.vx - p.wind_speed_ms
noncomputable def v_rel (p : LaunchParams) (s : SimState) : ℝ :=
  Real.sqrt ((v_rel_x p s) ^ 2 + s.vy ^ 2)
noncomputable def drag (p : LaunchParams) (s : SimState) : ℝ :=
  0.5 * rho_air * (v_rel p s) ^ 2 * Cd * bottle_area p
noncomputable def drag_x (p : LaunchParams) (s : SimState) : ℝ :=
  -(drag p s) * (v_rel_x p s / (v_rel p s + 1e-9))
noncomputable def drag_y (p : LaunchParams) (s : SimState) : ℝ :=
  -(drag p s) * (s.vy / (v_rel p s + 1e-9))
noncomputable def acc_x (p : LaunchParams) (s : SimState) : ℝ :=
  drag_x p s / s.mass
noncomputable def acc_y (p : LaunchParams) (s : SimState) : ℝ :=
  s.thrust / s.mass + drag_y p s / s.mass - g
noncomputable def new_vx (p : LaunchParams) (s : SimState) : ℝ :=
  s.vx + acc_x p s * dt
noncomputable def new_vy (p : LaunchParams) (s : SimState) : ℝ :=
  s.vy + acc_y p s * dt
noncomputable def new_x (p : LaunchParams) (s : SimState) : ℝ :=
  s.x + new_vx p s * dt
noncomputable def new_y (p : LaunchParams) (s : SimState) : ℝ :=
  s.y + new_vy p s * dt

/-- The kinematic part of one loop iteration (lines 144-166): drag, gravity,
Euler updates, airborne flag, sample recording, time increment.  The sample
is recorded with the pre-increment time and the ground-floored height. -/
noncomputable def stepKin (p : LaunchParams) (s : SimState) : SimState :=
  { s with vx := new_vx p s, vy := new_vy p s, x := new_x p s, y := new_y p s,
           airborne := if 0 < new_y p s then true else s.airborne,
           times := s.times ++ [roundTo 3 s.t],
           xs := s.xs ++ [new_x p s],
           ys := s.ys ++ [max (new_y p s) 0],
           t := s.t + dt }

/-- One full iteration of the integration loop body (lines 112-166). -/
noncomputable def step (p : LaunchParams) (s : SimState) : SimState :=
  stepKin p (stepThrust p s)

/-- The early-exit condition of the loop (line 168), checked after the time
increment: the run must have been airborne, be at non-positive (unclamped)
height and descending. -/
def breakCond (s : SimState) : Prop := s.airborne = true ∧ s.y ≤ 0 ∧ s.vy ≤ 0

noncomputable instance (s : SimState) : Decidable (breakCond s) := by
  unfold breakCond; infer_instance

/-- The `while t < t_max` loop (lines 111-169), as fuel-indexed recursion.
`loop_fuel_add` below proves that fuel `12000` is never exhausted while the
`while` condition still holds, so this is exactly the Python loop. -/
noncomputable def loop (p : LaunchParams) : ℕ → SimState → SimState
  | 0, s => s
  | n + 1, s =>
    if s.t < t_max then
      let s' := step p s
      if s'.airborne = true ∧ s'.y ≤ 0 ∧ s'.vy ≤ 0 then s' else loop p n s'
    else s

/-- The state at the top of the loop (lines 89-109). -/
noncomputable def initState (p : LaunchParams) : SimState :=
  { x := 0, y := 0, vx := 0, vy := 0, t := 0,
    m_water := m_water_init p, m_air := m_air_init p, mass := mass_init p,
    p_abs := p_abs_init p, thrust := 0, airborne := false,
    times := [], xs := [], ys := [] }

/-- The state after the loop; `12000 = t_max / dt` steps of fuel. -/
noncomputable def finalState (p : LaunchParams) : SimState :=
  loop p 12000 (initState p)

/-- The dictionary returned by `simulate_flight` (lines 171-177). -/
structure FlightResult where
  t : List ℝ
  x : List ℝ
  y : List ℝ
  max_altitude_m : ℝ
  range_m : ℝ

/-- `simulate_flight` (lines 70-177). -/
noncomputable def simulate_flight (p : LaunchParams) : FlightResult :=
  let s := finalState p
  { t := s.times, x := s.xs, y := s.ys,
    max_altitude_m := if s.ys = [] then 0 else roundTo 2 (pyMax s.ys),
    range_m := if s.xs = [] then 0 else roundTo 2 (s.xs.getLastD 0) }

end WaterRocket

namespace ConnectionManager

/-! `ConnectionManager` (lines 16-33 of server.py).  `V` is the opaque viewer
(WebSocket) type; the registry `active_connections` is a `List V`.
`broadcast` iterates over a snapshot (`list(self.active_connections)`) and
removes a viewer on its first failed delivery; the per-call delivery outcome
is the predicate `fails`. -/

variable {V : Type _} [DecidableEq V]

/-- `connect` (lines 20-22): accept then append. -/
def connect (ws : V) (l : List V) : List V := l ++ [ws]

/-- `disconnect` (lines 24-26): remove the first occurrence if present. -/
def disconnect (ws : V) (l : List V) : List V :=
  if ws ∈ l then l.erase ws else l

/-- The fan-out of `broadcast` (lines 28-33) over the snapshot (first list
argument), threading the live registry (second argument); returns the final
registry and the list of viewers that received the message, in delivery
order. -/
def broadcastRun (fails : V → Bool) : List V → List V → List V × List V
  | [], conns => (conns, [])
  | c :: rest, conns =>
    if fails c then broadcastRun fails rest (disconnect c conns)
    else
      let r := broadcastRun fails rest conns
      (r.1, c :: r.2)

/-- `broadcast` (lines 28-33): snapshot the registry, then fan out. -/
def broadcast (fails : V → Bool) (conns : List V) : List V × List V :=
  broadcastRun fails conns conns

/-- One registry operation of the hub. -/
inductive HubOp (V : Type _) where
  | connect (v : V)
  | disconnect (v : V)
  | broadcast (fails : V → Bool)

/-- Effect of an operation on the registry. -/
def applyOp : HubOp V → List V → List V
  | .connect v, l => connect v l
  | .disconnect v, l => disconnect v l
  | .broadcast fails, l => (broadcast fails l).1

/-- Run a sequence of operations from a registry. -/
def runOps (ops : List (HubOp V)) (l : List V) : List V :=
  ops.foldl (fun l op => applyOp op l) l

/-- `validFrom l ops = true` iff every `connect` in `ops` adds a sink that is
not registered at that point (each server connection handler connects its own
fresh WebSocket object exactly once, so real traces satisfy this). -/
def validFrom : List V → List (HubOp V) → Bool
  | _, [] => true
  | l, op :: rest =>
    (match op with
     | .connect v => decide (v ∉ l)
     | _ => true) && validFrom (applyOp op l) rest

end ConnectionManager

namespace WaterRocket

/-! The `/ws` endpoint loop body (lines 229-238 of server.py). -/

/-- A JSON value, as returned by `websocket.receive_json()`. -/
inductive JVal where
  | null
  | bool (b : Bool)
  | num (q : ℚ)
  | str (s : String)
  | arr (l : List JVal)
  | obj (l : List (String × JVal))

/-- Python `dict.get(key)` on a JSON object: first binding of the key. -/
def dictGet : List (String × JVal) → String → Option JVal
  | [], _ => none
  | (k, v) :: rest, key => if k = key then some v else dictGet rest key

/-- Python `dict.get(key, default)`. -/
def dictGetD (kvs : List (String × JVal)) (key : String) (dflt : JVal) : JVal :=
  (dictGet kvs key).getD dflt

/-- The test `data.get("type") == "chat"`: true only when the key is present
and holds exactly the string "chat". -/
def isChat : Option JVal → Bool
  | some (.str s) => s = ("chat")
  | _ => false

/-- The chat message rebroadcast by the endpoint (lines 232-238). -/
def chatMsg (user text : JVal) : JVal :=
  .obj [(("channel"), .str ("chat")),
        (("data"), .obj [(("user"), user), (("text"), text)])]

/-- One iteration of the `/ws` receive loop (lines 230-238) on a received
frame.  `.ok (some m)` means `m` is broadcast and the loop continues;
`.ok none` means no broadcast and the loop continues; `.error ()` models the
`AttributeError` raised by `data.get` on a non-dict frame, which the outer
`except Exception` turns into a disconnect (the connection does not stay
open). -/
def handleFrame : JVal → Except Unit (Option JVal)
  | .obj kvs =>
    if isChat (dictGet kvs ("type")) then
      .ok (some (chatMsg (dictGetD kvs ("user") (.str ("anon")))
                         (dictGetD kvs ("text") (.str ("")))))
    else .ok none
  | _ => .error ()

end WaterRocket

namespace WaterRocket

/-! ### Basic facts about one step and about the loop -/

section StepLemmas

variable (p : LaunchParams) (s : SimState)

lemma stepThrust_x : (stepThrust p s).x = s.x := by
  unfold stepThrust; split_ifs <;> rfl

lemma stepThrust_y : (stepThrust p s).y = s.y := by
  unfold stepThrust; split_ifs <;> rfl

lemma stepThrust_vx : (stepThrust p s).vx = s.vx := by
  unfold stepThrust; split_ifs <;> rfl

lemma stepThrust_vy : (stepThrust p s).vy = s.vy := by
  unfold stepThrust; split_ifs <;> rfl

lemma stepThrust_t : (stepThrust p s).t = s.t := by
  unfold stepThrust; split_ifs <;> rfl

lemma stepThrust_airborne : (stepThrust p s).airborne = s.airborne := by
  unfold stepThrust; split_ifs <;> rfl

lemma stepThrust_times : (stepThrust p s).times = s.times := by
  unfold stepThrust; split_ifs <;> rfl

lemma stepThrust_xs : (stepThrust p s).xs = s.xs := by
  unfold stepThrust; split_ifs <;> rfl

lemma stepThrust_ys : (stepThrust p s).ys = s.ys := by
  unfold stepThrust; split_ifs <;> rfl

lemma step_t : (step p s).t = s.t + dt := by
  simp [step, stepKin, stepThrust_t]

lemma step_ys : (step p s).ys = s.ys ++ [max (new_y p (stepThrust p s)) 0] := by
  simp [step, stepKin, stepThrust_ys]

lemma step_xs : (step p s).xs = s.xs ++ [new_x p (stepThrust p s)] := by
  simp [step, stepKin, stepThrust_xs]

lemma step_times : (step p s).times = s.times ++ [roundTo 3 s.t] := by
  simp [step, stepKin, stepThrust_times, stepThrust_t]

lemma step_airborne : (step p s).airborne
    = if 0 < new_y p (stepThrust p s) then true else s.airborne := by
  simp [step, stepKin, stepThrust_airborne]

lemma step_y : (step p s).y = new_y p (stepThrust p s) := rfl

lemma step_x : (step p s).x = new_x p (stepThrust p s) := rfl

lemma step_vx : (step p s).vx = new_vx p (stepThrust p s) := rfl

lemma step_vy : (step p s).vy = new_vy p (stepThrust p s) := rfl

lemma step_m_water : (step p s).m_water = (stepThrust p s).m_water := rfl

lemma step_m_air : (step p s).m_air = (stepThrust p s).m_air := rfl

lemma step_mass : (step p s).mass = (stepThrust p s).mass := rfl

lemma step_thrust : (step p s).thrust = (stepThrust p s).thrust := rfl

end StepLemmas

section LoopLemmas

variable (p : LaunchParams)

lemma loop_zero (s : SimState) : loop p 0 s = s := rfl

lemma loop_succ (n : ℕ) (s : SimState) :
    loop p (n + 1) s =
      if s.t < t_max then
        if breakCond (step p s) then step p s else loop p n (step p s)
      else s := rfl

lemma loop_of_not_lt {s : SimState} (h : ¬ s.t < t_max) (n : ℕ) :
    loop p n s = s := by
  cases n with
  | zero => rfl
  | succ n => rw [loop_succ, if_neg h]

/-- Adding fuel beyond what the time bound needs does not change the result:
in real arithmetic `t` increases by exactly `dt` each iteration, so the
`while` condition fails after at most `(t_max - t₀)/dt` iterations. -/
lemma loop_fuel_add (n : ℕ) :
    ∀ (m : ℕ) (s : SimState), t_max ≤ s.t + n * dt →
      loop p (n + m) s = loop p n s := by
  induction n with
  | zero =>
    intro m s h
    simp only [Nat.cast_zero, zero_mul, add_zero] at h
    rw [loop_zero, Nat.zero_add, loop_of_not_lt p (not_lt.mpr h)]
  | succ n ih =>
    intro m s h
    by_cases ht : s.t < t_max
    · rw [show n + 1 + m = (n + m) + 1 by omega, loop_succ, loop_succ,
        if_pos ht, if_pos ht]
      by_cases hb : breakCond (step p s)
      · rw [if_pos hb, if_pos hb]
      · rw [if_neg hb, if_neg hb]
        exact ih m (step p s) (by rw [step_t]; push_cast at h ⊢; linarith)
    · rw [loop_of_not_lt p ht, loop_of_not_lt p ht]

/-- If the loop result still satisfies the `while` condition (given enough
fuel for the time bound), the loop exited through the `break`. -/
lemma loop_exit (n : ℕ) :
    ∀ (s : SimState), t_max ≤ s.t + n * dt →
      (loop p n s).t < t_max → breakCond (loop p n s) := by
  induction n with
  | zero =>
    intro s h hlt
    rw [loop_zero] at hlt
    simp only [Nat.cast_zero, zero_mul, add_zero] at h
    exact absurd hlt (not_lt.mpr h)
  | succ n ih =>
    intro s h hlt
    by_cases ht : s.t < t_max
    · rw [loop_succ, if_pos ht] at hlt ⊢
      by_cases hb : breakCond (step p s)
      · rwa [if_pos hb]
      · rw [if_neg hb] at hlt ⊢
        exact ih (step p s) (by rw [step_t]; push_cast at h ⊢; linarith) hlt
    · rw [loop_of_not_lt p ht] at hlt
      exact absurd hlt ht

/-- The loop performs some number `k ≤ n` of iterations: each one appends one
sample to each list and advances `t` by `dt`. -/
lemma loop_count (n : ℕ) :
    ∀ (s : SimState), ∃ k ≤ n,
      (loop p n s).ys.length = s.ys.length + k ∧
      (loop p n s).xs.length = s.xs.length + k ∧
      (loop p n s).times.length = s.times.length + k ∧
      (loop p n s).t = s.t + k * dt := by
  induction n with
  | zero =>
    intro s
    exact ⟨0, le_refl 0, by simp [loop_zero]⟩
  | succ n ih =>
    intro s
    by_cases ht : s.t < t_max
    · by_cases hb : breakCond (step p s)
      · refine ⟨1, by omega, ?_⟩
        rw [loop_succ, if_pos ht, if_pos hb]
        simp [step_ys, step_xs, step_times, step_t]
      · obtain ⟨k, hk, h1, h2, h3, h4⟩ := ih (step p s)
        refine ⟨k + 1, by omega, ?_⟩
        rw [loop_succ, if_pos ht, if_neg hb]
        refine ⟨?_, ?_, ?_, ?_⟩
        · rw [h1, step_ys]; simp; omega
        · rw [h2, step_xs]; simp; omega
        · rw [h3, step_times]; simp; omega
        · rw [h4, step_t]; push_cast; ring
    · exact ⟨0, by omega, by simp [loop_of_not_lt p ht]⟩

lemma loop_ys_mem (n : ℕ) :
    ∀ (s : SimState) {v : ℝ}, v ∈ s.ys → v ∈ (loop p n s).ys := by
  induction n with
  | zero => intro s v h; rwa [loop_zero]
  | succ n ih =>
    intro s v h
    by_cases ht : s.t < t_max
    · rw [loop_succ, if_pos ht]
      by_cases hb : breakCond (step p s)
      · rw [if_pos hb, step_ys]; exact List.mem_append_left _ h
      · rw [if_neg hb]
        exact ih (step p s) (by rw [step_ys]; exact List.mem_append_left _ h)
    · rwa [loop_of_not_lt p ht]

lemma loop_ys_nonneg (n : ℕ) :
    ∀ (s : SimState), (∀ v ∈ s.ys, 0 ≤ v) →
      ∀ v ∈ (loop p n s).ys, 0 ≤ v := by
  induction n with
  | zero => intro s h; rwa [loop_zero]
  | succ n ih =>
    intro s h
    by_cases ht : s.t < t_max
    · have hstep : ∀ v ∈ (step p s).ys, 0 ≤ v := by
        rw [step_ys]
        intro v hv
        rcases List.mem_append.mp hv with hv | hv
        · exact h v hv
        · rcases List.mem_singleton.mp hv with rfl
          exact le_max_right _ 0
      rw [loop_succ, if_pos ht]
      by_cases hb : breakCond (step p s)
      · rw [if_pos hb]; exact hstep
      · rw [if_neg hb]; exact ih (step p s) hstep
    · rwa [loop_of_not_lt p ht]

/-- The airborne flag is exactly "some recorded (floored) height is
positive": the flag is set when the unclamped height is positive, and a
positive floored sample equals the unclamped height. -/
lemma loop_airborne_iff (n : ℕ) :
    ∀ (s : SimState),
      (s.airborne = true ↔ ∃ v ∈ s.ys, 0 < v) →
      ((loop p n s).airborne = true ↔ ∃ v ∈ (loop p n s).ys, 0 < v) := by
  induction n with
  | zero => intro s h; rwa [loop_zero]
  | succ n ih =>
    intro s h
    by_cases ht : s.t < t_max
    · have hstep : (step p s).airborne = true ↔ ∃ v ∈ (step p s).ys, 0 < v := by
        rw [step_ys, step_airborne]
        by_cases hy : 0 < new_y p (stepThrust p s)
        · simp only [if_pos hy, true_iff]
          exact ⟨max (new_y p (stepThrust p s)) 0,
            List.mem_append_right _ (List.mem_singleton_self _),
            lt_max_of_lt_left hy⟩
        · simp only [if_neg hy]
          rw [h]
          constructor
          · rintro ⟨v, hv, hv0⟩
            exact ⟨v, List.mem_append_left _ hv, hv0⟩
          · rintro ⟨v, hv, hv0⟩
            rcases List.mem_append.mp hv with hv | hv
            · exact ⟨v, hv, hv0⟩
            · rcases List.mem_singleton.mp hv with rfl
              rw [max_eq_right (le_of_not_lt hy)] at hv0
              exact absurd hv0 (lt_irrefl 0)
      rw [loop_succ, if_pos ht]
      by_cases hb : breakCond (step p s)
      · rw [if_pos hb]; exact hstep
      · rw [if_neg hb]; exact ih (step p s) hstep
    · rwa [loop_of_not_lt p ht]

/-- The loop result is an iterate of `step`: the loop applies `step` some
`m ≤ n` times. -/
lemma loop_iterate (n : ℕ) :
    ∀ (s : SimState), ∃ m ≤ n, loop p n s = (step p)^[m] s := by
  induction n with
  | zero => intro s; exact ⟨0, le_refl 0, rfl⟩
  | succ n ih =>
    intro s
    by_cases ht : s.t < t_max
    · by_cases hb : breakCond (step p s)
      · exact ⟨1, by omega, by rw [loop_succ, if_pos ht, if_pos hb]; rfl⟩
      · obtain ⟨m, hm, hiter⟩ := ih (step p s)
        refine ⟨m + 1, by omega, ?_⟩
        rw [loop_succ, if_pos ht, if_neg hb, hiter,
          Function.iterate_succ_apply]
    · exact ⟨0, by omega, loop_of_not_lt p ht (n + 1)⟩

end LoopLemmas

end WaterRocket

namespace WaterRocket

/-! ### Rounding and list-maximum facts -/

lemma roundHalfEven_zero : roundHalfEven 0 = 0 := by
  unfold roundHalfEven
  norm_num [Int.fract_zero]

lemma roundTo_zero (nd : ℕ) : roundTo nd 0 = 0 := by
  unfold roundTo
  rw [zero_mul, roundHalfEven_zero]
  simp

lemma floor_le_roundHalfEven (x : ℝ) : ⌊x⌋ ≤ roundHalfEven x := by
  unfold roundHalfEven
  split_ifs <;> omega

lemma roundTo_two_pos {x : ℝ} (hx : 0.018 ≤ x) : 0 < roundTo 2 x := by
  unfold roundTo
  have h1 : (1 : ℤ) ≤ ⌊x * 10 ^ 2⌋ := by
    apply Int.le_floor.mpr
    push_cast
    nlinarith
  have h2 : (1 : ℤ) ≤ roundHalfEven (x * 10 ^ 2) :=
    le_trans h1 (floor_le_roundHalfEven _)
  have h3 : (1 : ℝ) ≤ (roundHalfEven (x * 10 ^ 2) : ℝ) := by exact_mod_cast h2
  apply div_pos (by linarith) (by norm_num)

lemma le_foldl_max (l : List ℝ) (a : ℝ) : a ≤ l.foldl max a := by
  induction l generalizing a with
  | nil => exact le_refl a
  | cons b l ih => exact le_trans (le_max_left a b) (ih (max a b))

lemma foldl_max_mem (l : List ℝ) (a : ℝ) :
    l.foldl max a = a ∨ l.foldl max a ∈ l := by
  induction l generalizing a with
  | nil => exact Or.inl rfl
  | cons b l ih =>
    simp only [List.foldl_cons]
    rcases ih (max a b) with h | h
    · rcases max_choice a b with hm | hm
      · exact Or.inl (by rw [h, hm])
      · exact Or.inr (by rw [h, hm]; exact List.mem_cons_self b l)
    · exact Or.inr (List.mem_cons_of_mem b h)

lemma mem_le_foldl_max {v : ℝ} {l : List ℝ} (hv : v ∈ l) (a : ℝ) :
    v ≤ l.foldl max a := by
  induction l generalizing a with
  | nil => cases hv
  | cons b l ih =>
    simp only [List.foldl_cons]
    rcases List.mem_cons.mp hv with rfl | h
    · exact le_trans (le_max_right a v) (le_foldl_max l (max a v))
    · exact ih h (max a b)

lemma pyMax_mem {l : List ℝ} (h : l ≠ []) : pyMax l ∈ l := by
  cases l with
  | nil => exact absurd rfl h
  | cons a t =>
    simp only [pyMax]
    rcases foldl_max_mem t a with h' | h'
    · rw [h']; exact List.mem_cons_self a t
    · exact List.mem_cons_of_mem a h'

lemma le_pyMax {l : List ℝ} {v : ℝ} (hv : v ∈ l) : v ≤ pyMax l := by
  cases l with
  | nil => cases hv
  | cons a t =>
    simp only [pyMax]
    rcases List.mem_cons.mp hv with rfl | h
    · exact le_foldl_max t v
    · exact mem_le_foldl_max h a

lemma pyMax_eq_zero {l : List ℝ} (h : ∀ v ∈ l, v = 0) : pyMax l = 0 := by
  cases l with
  | nil => rfl
  | cons a t => exact h _ (pyMax_mem (List.cons_ne_nil a t))

lemma getLastD_zero_of_all_zero :
    ∀ (l : List ℝ), (∀ v ∈ l, v = 0) → l.getLastD 0 = 0
  | [], _ => rfl
  | a :: t, h => by
    rw [List.getLastD_cons]
    have ha : a = 0 := h a (List.mem_cons_self a t)
    have ht : ∀ v ∈ t, v = 0 := fun v hv => h v (List.mem_cons_of_mem a hv)
    cases t with
    | nil => exact ha
    | cons b u =>
      have := getLastD_zero_of_all_zero (b :: u) ht
      rw [List.getLastD_cons] at this ⊢
      exact this

lemma loop_xs_mem (p : LaunchParams) (n : ℕ) :
    ∀ (s : SimState) {v : ℝ}, v ∈ s.xs → v ∈ (loop p n s).xs := by
  induction n with
  | zero => intro s v h; rwa [loop_zero]
  | succ n ih =>
    intro s v h
    by_cases ht : s.t < t_max
    · rw [loop_succ, if_pos ht]
      by_cases hb : breakCond (step p s)
      · rw [if_pos hb, step_xs]; exact List.mem_append_left _ h
      · rw [if_neg hb]
        exact ih (step p s) (by rw [step_xs]; exact List.mem_append_left _ h)
    · rwa [loop_of_not_lt p ht]

/-! ### Projections of the result record -/

lemma simulate_flight_y (p : LaunchParams) :
    (simulate_flight p).y = (finalState p).ys := rfl

lemma simulate_flight_x (p : LaunchParams) :
    (simulate_flight p).x = (finalState p).xs := rfl

lemma simulate_flight_alt (p : LaunchParams) :
    (simulate_flight p).max_altitude_m =
      if (finalState p).ys = [] then 0 else roundTo 2 (pyMax (finalState p).ys) := rfl

lemma simulate_flight_range (p : LaunchParams) :
    (simulate_flight p).range_m =
      if (finalState p).xs = [] then 0
      else roundTo 2 ((finalState p).xs.getLastD 0) := rfl

lemma initState_t (p : LaunchParams) : (initState p).t = 0 := rfl

lemma initState_t_lt (p : LaunchParams) : (initState p).t < t_max := by
  rw [initState_t]; norm_num [t_max]

lemma fuel_enough (p : LaunchParams) :
    t_max ≤ (initState p).t + (12000 : ℕ) * dt := by
  rw [initState_t]; norm_num [t_max, dt]

/-- The first loop iteration always runs and records a sample; the sample
stays in the final trajectory. -/
lemma finalState_ys_ne_nil (p : LaunchParams) : (finalState p).ys ≠ [] := by
  have hmem : max (new_y p (stepThrust p (initState p))) 0 ∈ (finalState p).ys := by
    rw [finalState, show (12000 : ℕ) = 11999 + 1 from rfl, loop_succ,
      if_pos (initState_t_lt p)]
    by_cases hb : breakCond (step p (initState p))
    · rw [if_pos hb, step_ys]
      simp [initState]
    · rw [if_neg hb]
      apply loop_ys_mem
      rw [step_ys]
      simp [initState]
  exact List.ne_nil_of_mem hmem

lemma finalState_xs_ne_nil (p : LaunchParams) : (finalState p).xs ≠ [] := by
  have hmem : new_x p (stepThrust p (initState p)) ∈ (finalState p).xs := by
    rw [finalState, show (12000 : ℕ) = 11999 + 1 from rfl, loop_succ,
      if_pos (initState_t_lt p)]
    by_cases hb : breakCond (step p (initState p))
    · rw [if_pos hb, step_xs]
      simp [initState]
    · rw [if_neg hb]
      apply loop_xs_mem
      rw [step_xs]
      simp [initState]
  exact List.ne_nil_of_mem hmem

/-! ### Claim theorems C1, C3, C6 -/

/-- C1: for parameters inside the documented ranges (bottle volume > 0,
bottle diameter > 0, nozzle diameter ≥ 0 — zero nozzle area included —
pressure ≥ 0, soap ≥ 0, wind and water volume arbitrary), `simulate_flight`
terminates within the fixed step cutoff (`12000 = t_max / dt` fuel is
exhausted exactly when the `while` condition fails, so adding fuel changes
nothing and the trajectory has at most 12000 samples), is a total function
(no exception), and returns a non-empty trajectory whose recorded heights
are all ≥ 0. -/
theorem C1_simulate_total_bounded_nonneg (p : LaunchParams)
    (h1 : 0 < p.bottle_volume_l) (h2 : 0 < p.bottle_diameter_cm)
    (h3 : 0 ≤ p.nozzle_diameter_cm) (h4 : 0 ≤ p.air_pressure_psi)
    (h5 : 0 ≤ p.soap_amount) :
    (∀ m : ℕ, loop p (12000 + m) (initState p) = finalState p) ∧
    (simulate_flight p).y ≠ [] ∧
    (simulate_flight p).y.length ≤ 12000 ∧
    (∀ v ∈ (simulate_flight p).y, 0 ≤ v) := by
  refine ⟨?_, ?_, ?_, ?_⟩
  · intro m
    exact loop_fuel_add p 12000 m (initState p) (fuel_enough p)
  · rw [simulate_flight_y]
    exact finalState_ys_ne_nil p
  · rw [simulate_flight_y]
    obtain ⟨k, hk, hlen, -⟩ := loop_count p 12000 (initState p)
    rw [finalState, hlen]
    simpa [initState] using hk
  · rw [simulate_flight_y]
    exact loop_ys_nonneg p 12000 (initState p) (by simp [initState])

/-- A concrete in-range parameter set used by witnesses. -/
noncomputable def pEx : LaunchParams :=
  { bottle_volume_l := 1, bottle_diameter_cm := 10, nozzle_diameter_cm := 1,
    water_volume_l := 0.5, air_pressure_psi := 40, soap_amount := 0,
    wind_speed_ms := 0, temperature_c := 20, player := ("p"),
    events_enabled := true }

theorem C1_witness :
    (0 < pEx.bottle_volume_l ∧ 0 < pEx.bottle_diameter_cm ∧
     0 ≤ pEx.nozzle_diameter_cm ∧ 0 ≤ pEx.air_pressure_psi ∧
     0 ≤ pEx.soap_amount) ∧
    ((∀ m : ℕ, loop pEx (12000 + m) (initState pEx) = finalState pEx) ∧
     (simulate_flight pEx).y ≠ [] ∧
     (simulate_flight pEx).y.length ≤ 12000 ∧
     (∀ v ∈ (simulate_flight pEx).y, 0 ≤ v)) :=
  ⟨⟨by norm_num [pEx], by norm_num [pEx], by norm_num [pEx],
    by norm_num [pEx], by norm_num [pEx]⟩,
   C1_simulate_total_bounded_nonneg pEx (by norm_num [pEx]) (by norm_num [pEx])
     (by norm_num [pEx]) (by norm_num [pEx]) (by norm_num [pEx])⟩

/-- C3: the returned `max_altitude_m` is the rounded maximum of the recorded
(ground-floored) height sequence — which is non-empty, so the
empty-sequence default 0 in the assembly is never taken — and `range_m` is
the rounded final recorded horizontal position of the same run. -/
theorem C3_result_assembly (p : LaunchParams) :
    (simulate_flight p).y ≠ [] ∧
    (simulate_flight p).x ≠ [] ∧
    pyMax (simulate_flight p).y ∈ (simulate_flight p).y ∧
    (∀ v ∈ (simulate_flight p).y, v ≤ pyMax (simulate_flight p).y) ∧
    (simulate_flight p).max_altitude_m = roundTo 2 (pyMax (simulate_flight p).y) ∧
    (simulate_flight p).range_m = roundTo 2 ((simulate_flight p).x.getLastD 0) := by
  have hy := finalState_ys_ne_nil p
  have hx := finalState_xs_ne_nil p
  refine ⟨by rw [simulate_flight_y]; exact hy,
          by rw [simulate_flight_x]; exact hx, ?_, ?_, ?_, ?_⟩
  · rw [simulate_flight_y]
    exact pyMax_mem hy
  · rw [simulate_flight_y]
    intro v hv
    exact le_pyMax hv
  · rw [simulate_flight_alt, simulate_flight_y, if_neg hy]
  · rw [simulate_flight_range, simulate_flight_x, if_neg hx]

/-- C6: the loop exits before the time cutoff only through the break
condition (airborne flag set, unclamped height ≤ 0, vertical velocity ≤ 0);
the airborne flag is set exactly when some recorded height is positive; and
a run that never registers a positive height runs to the full 12000-step
cutoff. -/
theorem C6_termination_policy (p : LaunchParams) :
    ((finalState p).t < t_max → breakCond (finalState p)) ∧
    ((finalState p).airborne = true ↔ ∃ v ∈ (finalState p).ys, 0 < v) ∧
    ((finalState p).airborne = false → (finalState p).ys.length = 12000) := by
  refine ⟨?_, ?_, ?_⟩
  · exact loop_exit p 12000 (initState p) (fuel_enough p)
  · exact loop_airborne_iff p 12000 (initState p) (by simp [initState])
  · intro hab
    obtain ⟨k, hk, hlen, -, -, ht⟩ := loop_count p 12000 (initState p)
    have hnb : ¬ breakCond (finalState p) := by
      intro hb
      rw [breakCond, hab] at hb
      exact Bool.false_ne_true hb.1
    have hge : t_max ≤ (finalState p).t := by
      by_contra hlt
      exact hnb (loop_exit p 12000 (initState p) (fuel_enough p) (not_le.mp hlt))
    rw [finalState] at *
    rw [ht, initState_t, zero_add] at hge
    have : (12000 : ℝ) ≤ (k : ℝ) := by
      rw [t_max] at hge
      rw [dt] at hge
      nlinarith
    have hk' : (12000 : ℕ) ≤ k := by exact_mod_cast this
    have : k = 12000 := le_antisymm hk hk'
    rw [hlen, this]
    simp [initState]

end WaterRocket

namespace WaterRocket

/-! ### C4: the simulation depends on the water volume only through its
clamp into `[0, bottle_volume_l]` -/

/-- The parameters with the water volume replaced by its clamp into
`[0, bottle_volume_l]` (litres), the clamp described by the spec. -/
noncomputable def clampParams (p : LaunchParams) : LaunchParams :=
  { p with water_volume_l := max (min p.water_volume_l p.bottle_volume_l) 0 }

lemma clamp_div_clamp (w B : ℝ) :
    max (min (max (min w B) 0 / 1000) (B / 1000)) 0
      = max (min (w / 1000) (B / 1000)) 0 := by
  have h1000 : (0 : ℝ) < 1000 := by norm_num
  rcases le_total (min w B) 0 with h | h
  · rw [max_eq_right h]
    have hw0 : min (w / 1000) (B / 1000) ≤ 0 := by
      rw [min_div_div_right h1000.le]
      exact div_nonpos_iff.mpr (Or.inr ⟨h, h1000.le⟩)
    rw [max_eq_right hw0, zero_div]
    exact max_eq_right (min_le_left 0 (B / 1000))
  · rw [max_eq_left h, min_div_div_right h1000.le, min_div_div_right h1000.le,
      min_assoc, min_self]

lemma water_volume_clamp (p : LaunchParams) :
    water_volume (clampParams p) = water_volume p := by
  unfold water_volume clampParams bottle_volume
  dsimp only
  exact clamp_div_clamp p.water_volume_l p.bottle_volume_l

lemma clampParams_bottle (p : LaunchParams) :
    bottle_volume (clampParams p) = bottle_volume p := rfl

lemma clampParams_init_air (p : LaunchParams) :
    init_air_volume (clampParams p) = init_air_volume p := by
  unfold init_air_volume
  rw [clampParams_bottle, water_volume_clamp]

lemma clampParams_air_vol_init (p : LaunchParams) :
    air_vol_init (clampParams p) = air_vol_init p := by
  unfold air_vol_init
  rw [clampParams_init_air]

lemma clampParams_m_water (p : LaunchParams) :
    m_water_init (clampParams p) = m_water_init p := by
  unfold m_water_init
  rw [water_volume_clamp]

lemma clampParams_m_air (p : LaunchParams) :
    m_air_init (clampParams p) = m_air_init p := by
  unfold m_air_init
  rw [clampParams_init_air]

lemma clampParams_mass (p : LaunchParams) :
    mass_init (clampParams p) = mass_init p := by
  unfold mass_init
  rw [clampParams_m_water, clampParams_m_air]
  rfl

lemma clampParams_initState (p : LaunchParams) :
    initState (clampParams p) = initState p := by
  unfold initState
  rw [clampParams_m_water, clampParams_m_air, clampParams_mass]
  rfl

lemma clampParams_dp_water (p : LaunchParams) (s : SimState) :
    dp_water (clampParams p) s = dp_water p s := by
  unfold dp_water p_abs_w air_vol_now
  rw [clampParams_air_vol_init, clampParams_bottle]
  rfl

lemma clampParams_dp_air (p : LaunchParams) :
    dp_air (clampParams p) = dp_air p := by
  unfold dp_air p_air_val
  rw [clampParams_air_vol_init, clampParams_bottle]
  rfl

lemma clampParams_p_abs_w (p : LaunchParams) (s : SimState) :
    p_abs_w (clampParams p) s = p_abs_w p s := by
  unfold p_abs_w air_vol_now
  rw [clampParams_air_vol_init]
  rfl

lemma clampParams_dm_w (p : LaunchParams) (s : SimState) :
    dm_w (clampParams p) s = dm_w p s := by
  unfold dm_w m_dot_w
  rw [clampParams_dp_water]
  rfl

lemma clampParams_thrust_w (p : LaunchParams) (s : SimState) :
    thrust_w (clampParams p) s = thrust_w p s := by
  unfold thrust_w
  rw [clampParams_dp_water]
  rfl

lemma clampParams_dm_a (p : LaunchParams) (s : SimState) :
    dm_a (clampParams p) s = dm_a p s := by
  unfold dm_a m_dot_a
  rw [clampParams_dp_air]
  rfl

lemma clampParams_stepThrust (p : LaunchParams) (s : SimState) :
    stepThrust (clampParams p) s = stepThrust p s := by
  unfold stepThrust
  rw [clampParams_dp_water, clampParams_dp_air, clampParams_dm_w,
    clampParams_dm_a, clampParams_thrust_w, clampParams_p_abs_w]
  rfl

lemma clampParams_step (p : LaunchParams) (s : SimState) :
    step (clampParams p) s = step p s := by
  unfold step
  rw [clampParams_stepThrust]
  rfl

lemma clampParams_loop (p : LaunchParams) (n : ℕ) :
    ∀ s : SimState, loop (clampParams p) n s = loop p n s := by
  induction n with
  | zero => intro s; rfl
  | succ n ih =>
    intro s
    rw [loop_succ, loop_succ, clampParams_step]
    split_ifs with h1 h2
    · rfl
    · exact ih (step p s)
    · rfl

/-- C4: for every parameter value (in particular when the requested water
volume exceeds the bottle volume or is negative), `simulate_flight` is total
and returns exactly the same result as for the water volume clamped into
`[0, bottle_volume_l]`: the run depends on the water volume only through the
clamped value. -/
theorem C4_water_volume_clamped (p : LaunchParams) :
    simulate_flight (clampParams p) = simulate_flight p := by
  unfold simulate_flight finalState
  rw [clampParams_initState, clampParams_loop]

end WaterRocket

namespace WaterRocket

/-! ### C5 / C10: per-step mass ejection and mass positivity -/

lemma rpow_eq (a b : ℝ) : Real.rpow a b = a ^ b := rfl

lemma air_vol_init_pos (p : LaunchParams) : 0 < air_vol_init p :=
  lt_of_lt_of_le (by norm_num) (le_max_right (init_air_volume p) 1e-9)

lemma nozzle_area_pos (p : LaunchParams) (h : p.nozzle_diameter_cm ≠ 0) :
    0 < nozzle_area p := by
  unfold nozzle_area
  have h2 : (p.nozzle_diameter_cm / 100) / 2 ≠ 0 :=
    div_ne_zero (div_ne_zero h (by norm_num)) (by norm_num)
  positivity

lemma air_vol_now_init (p : LaunchParams) :
    air_vol_now p (initState p) = init_air_volume p := by
  unfold air_vol_now init_air_volume
  simp only [initState]
  unfold m_water_init
  rw [mul_div_cancel_left₀ _ (by norm_num [rho_water] : rho_water ≠ 0)]

/-- On the very first step the air pocket still has its initial volume, so
the adiabatic ratio is 1 and the internal pressure equals the initial
absolute pressure. -/
lemma p_abs_w_init (p : LaunchParams) (h : (1e-9 : ℝ) ≤ init_air_volume p) :
    p_abs_w p (initState p) = p_abs_init p := by
  have hpos : 0 < air_vol_init p := air_vol_init_pos p
  have hinit : air_vol_init p = init_air_volume p := max_eq_left h
  unfold p_abs_w pressure_water_phase
  rw [if_neg (not_le.mpr hpos), air_vol_now_init, hinit,
    max_eq_left (le_trans (by norm_num) h), div_self (by linarith [h] : init_air_volume p ≠ 0)]
  rw [rpow_eq, Real.one_rpow]
  ring

lemma dp_water_init (p : LaunchParams) (h : (1e-9 : ℝ) ≤ init_air_volume p)
    (hpsi : 0 ≤ p.air_pressure_psi) :
    dp_water p (initState p) = p.air_pressure_psi * 6894.76 := by
  unfold dp_water
  rw [p_abs_w_init p h]
  unfold p_abs_init
  rw [show p.air_pressure_psi * 6894.76 + 101325 - 101325
      = p.air_pressure_psi * 6894.76 by ring]
  exact max_eq_left (by positivity)

/-- C5 (amended): whenever a thrust branch fires (remaining propellant mass
above the `1e-8` epsilon, positive nozzle area, positive pressure excess),
the ejected mass is exactly `min (outflow_rate * dt) (max (0.25 * m) 1e-6)`.
The cap keeps the post-step mass above `m - max (0.25 m) 1e-6`; it keeps the
mass strictly positive whenever the 25%-branch of the cap is active
(`0.25 * m ≥ 1e-6`), and in all cases the post-step mass stays above
`-1e-6` (the tiny floor can push a sub-`4e-6` mass slightly below zero, so
"never negative" holds only in this bounded-dip form; see the
counterexample). The air phase behaves in exact analogy. -/
theorem C5_step_mass_cap (p : LaunchParams) (s : SimState) :
    ((1e-8 < s.m_water ∧ 0 < nozzle_area p) → 0 < dp_water p s →
      ((stepThrust p s).m_water
          = s.m_water - min (m_dot_w p s * dt) (max (s.m_water * 0.25) 1e-6) ∧
       s.m_water - max (s.m_water * 0.25) 1e-6 ≤ (stepThrust p s).m_water ∧
       (1e-6 ≤ s.m_water * 0.25 → 0 < (stepThrust p s).m_water) ∧
       -1e-6 < (stepThrust p s).m_water)) ∧
    (¬ (1e-8 < s.m_water ∧ 0 < nozzle_area p) →
      (1e-8 < s.m_air ∧ 0 < nozzle_area p) → 0 < dp_air p →
      ((stepThrust p s).m_air
          = s.m_air - min (m_dot_a p * dt) (max (s.m_air * 0.25) 1e-6) ∧
       s.m_air - max (s.m_air * 0.25) 1e-6 ≤ (stepThrust p s).m_air ∧
       (1e-6 ≤ s.m_air * 0.25 → 0 < (stepThrust p s).m_air) ∧
       -1e-6 < (stepThrust p s).m_air)) := by
  constructor
  · intro hw hdp
    have heq : (stepThrust p s).m_water = s.m_water - dm_w p s := by
      unfold stepThrust
      rw [if_pos hw, if_pos hdp]
    have hdmle : dm_w p s ≤ max (s.m_water * 0.25) 1e-6 := min_le_right _ _
    have hm : (1e-8 : ℝ) < s.m_water := hw.1
    refine ⟨by rw [heq]; rfl, by rw [heq]; linarith, ?_, ?_⟩
    · intro hcap
      rw [heq]
      rw [max_eq_left hcap] at hdmle
      nlinarith
    · rw [heq]
      rcases le_total (s.m_water * 0.25) 1e-6 with hc | hc
      · rw [max_eq_right hc] at hdmle; linarith
      · rw [max_eq_left hc] at hdmle; nlinarith
  · intro hnw ha hdp
    have heq : (stepThrust p s).m_air = s.m_air - dm_a p s := by
      unfold stepThrust
      rw [if_neg hnw, if_pos ha, if_pos hdp]
    have hdmle : dm_a p s ≤ max (s.m_air * 0.25) 1e-6 := min_le_right _ _
    have hm : (1e-8 : ℝ) < s.m_air := ha.1
    refine ⟨by rw [heq]; rfl, by rw [heq]; linarith, ?_, ?_⟩
    · intro hcap
      rw [heq]
      rw [max_eq_left hcap] at hdmle
      nlinarith
    · rw [heq]
      rcases le_total (s.m_air * 0.25) 1e-6 with hc | hc
      · rw [max_eq_right hc] at hdmle; linarith
      · rw [max_eq_left hc] at hdmle; nlinarith

/-- Water-phase witness parameters: 1 L bottle, 1 cm nozzle, 0.1 mL of
water, 50 psi. -/
noncomputable def pW5 : LaunchParams :=
  { bottle_volume_l := 1, bottle_diameter_cm := 10, nozzle_diameter_cm := 1,
    water_volume_l := 1e-4, air_pressure_psi := 50, soap_amount := 0,
    wind_speed_ms := 0, temperature_c := 20, player := ("w"),
    events_enabled := true }

lemma pW5_water_volume : water_volume pW5 = 1e-7 := by
  unfold water_volume bottle_volume pW5
  rw [min_eq_left (by norm_num), max_eq_left (by norm_num)]
  norm_num

lemma pW5_m_water : m_water_init pW5 = 1e-4 := by
  unfold m_water_init rho_water
  rw [pW5_water_volume]
  norm_num

lemma pW5_init_air : init_air_volume pW5 = 1e-3 - 1e-7 := by
  unfold init_air_volume bottle_volume
  rw [pW5_water_volume]
  norm_num [pW5]

/-- Air-phase witness parameters: half-full 1 L bottle at 50 psi. -/
noncomputable def pA5 : LaunchParams :=
  { bottle_volume_l := 1, bottle_diameter_cm := 10, nozzle_diameter_cm := 1,
    water_volume_l := 0.5, air_pressure_psi := 50, soap_amount := 0,
    wind_speed_ms := 0, temperature_c := 20, player := ("a"),
    events_enabled := true }

/-- An air-phase state: the water of `pA5` already exhausted. -/
noncomputable def sA5 : SimState := { initState pA5 with m_water := 0 }

lemma pA5_water_volume : water_volume pA5 = 5e-4 := by
  unfold water_volume bottle_volume pA5
  rw [min_eq_left (by norm_num), max_eq_left (by norm_num)]
  norm_num

lemma pA5_air_vol_init : air_vol_init pA5 = 5e-4 := by
  unfold air_vol_init init_air_volume bottle_volume
  rw [pA5_water_volume]
  rw [max_eq_left (by norm_num [pA5])]
  norm_num [pA5]

lemma pA5_dp_air_pos : 0 < dp_air pA5 := by
  unfold dp_air p_air_val pressure_air_phase bottle_volume gamma
  rw [pA5_air_vol_init]
  have hratio : (pA5.bottle_volume_l / 1000) / 5e-4 = 2 := by norm_num [pA5]
  rw [hratio, rpow_eq]
  apply lt_max_iff.mpr
  left
  have hpos : 0 < (2 : ℝ) ^ (1.4 : ℝ) := Real.rpow_pos_of_pos (by norm_num) _
  have h22 : (2 : ℝ) ^ (2 : ℝ) = 4 := by
    have h := Real.rpow_natCast (2 : ℝ) 2
    rw [Nat.cast_ofNat] at h
    rw [h]
    norm_num
  have h4 : (2 : ℝ) ^ (1.4 : ℝ) ≤ 4 := by
    have h := Real.rpow_le_rpow_of_exponent_le
      (by norm_num : (1 : ℝ) ≤ 2) (by norm_num : (1.4 : ℝ) ≤ 2)
    rwa [h22] at h
  have hneg : (2 : ℝ) ^ (-(1.4 : ℝ)) = ((2 : ℝ) ^ (1.4 : ℝ))⁻¹ :=
    Real.rpow_neg (by norm_num) _
  rw [hneg]
  have hinv : (4 : ℝ)⁻¹ ≤ ((2 : ℝ) ^ (1.4 : ℝ))⁻¹ := inv_anti₀ hpos h4
  have hp0 : p_abs_init pA5 = 446063 := by
    unfold p_abs_init pA5
    norm_num
  rw [hp0]
  nlinarith

theorem C5_witness :
    ((stepThrust pW5 (initState pW5)).m_water
        = (initState pW5).m_water
          - min (m_dot_w pW5 (initState pW5) * dt)
              (max ((initState pW5).m_water * 0.25) 1e-6) ∧
     (initState pW5).m_water - max ((initState pW5).m_water * 0.25) 1e-6
        ≤ (stepThrust pW5 (initState pW5)).m_water ∧
     (1e-6 ≤ (initState pW5).m_water * 0.25 →
        0 < (stepThrust pW5 (initState pW5)).m_water) ∧
     -1e-6 < (stepThrust pW5 (initState pW5)).m_water) ∧
    ((stepThrust pA5 sA5).m_air
        = sA5.m_air - min (m_dot_a pA5 * dt) (max (sA5.m_air * 0.25) 1e-6) ∧
     sA5.m_air - max (sA5.m_air * 0.25) 1e-6 ≤ (stepThrust pA5 sA5).m_air ∧
     (1e-6 ≤ sA5.m_air * 0.25 → 0 < (stepThrust pA5 sA5).m_air) ∧
     -1e-6 < (stepThrust pA5 sA5).m_air) := by
  constructor
  · apply (C5_step_mass_cap pW5 (initState pW5)).1
    · constructor
      · show (1e-8 : ℝ) < m_water_init pW5
        rw [pW5_m_water]; norm_num
      · exact nozzle_area_pos pW5 (by norm_num [pW5])
    · rw [dp_water_init pW5 (by rw [pW5_init_air]; norm_num) (by norm_num [pW5])]
      norm_num [pW5]
  · apply (C5_step_mass_cap pA5 sA5).2
    · intro hcon
      have : (1e-8 : ℝ) < (0 : ℝ) := hcon.1
      norm_num at this
    · constructor
      · show (1e-8 : ℝ) < m_air_init pA5
        unfold m_air_init init_air_volume bottle_volume rho_air
        rw [pA5_water_volume]
        rw [max_eq_left (by norm_num [pA5])]
        norm_num [pA5]
      · exact nozzle_area_pos pA5 (by norm_num [pA5])
    · exact pA5_dp_air_pos

/-- C5 counterexample parameters: 0.0001 mL of water gives an initial water
mass of `1e-7` kg, above the phase epsilon `1e-8` but below the cap floor
`1e-6`. -/
noncomputable def pC5 : LaunchParams :=
  { bottle_volume_l := 1, bottle_diameter_cm := 10, nozzle_diameter_cm := 1,
    water_volume_l := 1e-7, air_pressure_psi := 50, soap_amount := 0,
    wind_speed_ms := 0, temperature_c := 20, player := ("c"),
    events_enabled := true }

lemma pC5_water_volume : water_volume pC5 = 1e-10 := by
  unfold water_volume bottle_volume pC5
  rw [min_eq_left (by norm_num), max_eq_left (by norm_num)]
  norm_num

lemma pC5_m_water : m_water_init pC5 = 1e-7 := by
  unfold m_water_init rho_water
  rw [pC5_water_volume]
  norm_num

lemma pC5_init_air : init_air_volume pC5 = 1e-3 - 1e-10 := by
  unfold init_air_volume bottle_volume
  rw [pC5_water_volume]
  norm_num [pC5]

lemma pC5_dp_water : dp_water pC5 (initState pC5) = 344738 := by
  rw [dp_water_init pC5 (by rw [pC5_init_air]; norm_num) (by norm_num [pC5])]
  norm_num [pC5]

/-- C5 counterexample: with `pC5` the very first integration step of the
water phase drives the remaining water mass strictly below zero (the cap
floor `1e-6` exceeds the whole remaining mass `1e-7`), refuting "this cap
prevents a single step from driving the mass negative". -/
theorem C5_counterexample : (stepThrust pC5 (initState pC5)).m_water < 0 := by
  have hmw : (initState pC5).m_water = 1e-7 := pC5_m_water
  have hcond : 1e-8 < (initState pC5).m_water ∧ 0 < nozzle_area pC5 :=
    ⟨by rw [hmw]; norm_num, nozzle_area_pos pC5 (by norm_num [pC5])⟩
  have hdp : dp_water pC5 (initState pC5) = 344738 := pC5_dp_water
  have hle : (1e-6 : ℝ) ≤ m_dot_w pC5 (initState pC5) * dt := by
    unfold m_dot_w rho_water dt
    rw [hdp]
    have hsqrt : (26 : ℝ) ≤ Real.sqrt (2 * 344738 / 1000) := by
      rw [Real.le_sqrt' (by norm_num)]
      norm_num
    have hna : (7.5e-5 : ℝ) ≤ nozzle_area pC5 := by
      unfold nozzle_area pC5
      have := Real.pi_gt_three
      nlinarith
    nlinarith [Real.sqrt_nonneg (2 * 344738 / 1000)]
  have hdm : dm_w pC5 (initState pC5) = 1e-6 := by
    unfold dm_w
    rw [hmw, max_eq_right (by norm_num : (1e-7 : ℝ) * 0.25 ≤ 1e-6)]
    exact min_eq_right hle
  have heq : (stepThrust pC5 (initState pC5)).m_water
      = (initState pC5).m_water - dm_w pC5 (initState pC5) := by
    unfold stepThrust
    rw [if_pos hcond, if_pos (by rw [hdp]; norm_num)]
  rw [heq, hmw, hdm]
  norm_num

/-- The total mass recomputed by each thrust-phase branch stays strictly
positive as long as the propellant masses are above `-1e-6` on entry: the
dip below zero is bounded by the cap, and the dry mass is at least 0.15. -/
lemma stepThrust_mass_inv (p : LaunchParams) (hs : 0 ≤ p.soap_amount)
    (s : SimState) (hw : -1e-6 < s.m_water) (ha : -1e-6 < s.m_air) :
    -1e-6 < (stepThrust p s).m_water ∧ -1e-6 < (stepThrust p s).m_air ∧
    0 < (stepThrust p s).mass := by
  have hdry : (0.15 : ℝ) ≤ dry_mass p := by unfold dry_mass; linarith
  unfold stepThrust
  split_ifs with h1 h2 h3 h4
  · have hdm : dm_w p s ≤ max (s.m_water * 0.25) 1e-6 := min_le_right _ _
    have hm : (1e-8 : ℝ) < s.m_water := h1.1
    have hw' : -1e-6 < s.m_water - dm_w p s := by
      rcases le_total (s.m_water * 0.25) 1e-6 with hc | hc
      · rw [max_eq_right hc] at hdm; linarith
      · rw [max_eq_left hc] at hdm; nlinarith
    refine ⟨hw', ha, ?_⟩
    show 0 < dry_mass p + (s.m_water - dm_w p s) + s.m_air
    linarith
  · refine ⟨by norm_num, ha, ?_⟩
    show 0 < dry_mass p + s.m_air
    linarith
  · have hdm : dm_a p s ≤ max (s.m_air * 0.25) 1e-6 := min_le_right _ _
    have hm : (1e-8 : ℝ) < s.m_air := h3.1
    have ha' : -1e-6 < s.m_air - dm_a p s := by
      rcases le_total (s.m_air * 0.25) 1e-6 with hc | hc
      · rw [max_eq_right hc] at hdm; linarith
      · rw [max_eq_left hc] at hdm; nlinarith
    refine ⟨hw, ha', ?_⟩
    show 0 < dry_mass p + (s.m_air - dm_a p s)
    linarith
  · refine ⟨hw, by norm_num, ?_⟩
    show 0 < dry_mass p
    linarith
  · refine ⟨hw, ha, ?_⟩
    show 0 < dry_mass p
    linarith

lemma m_water_init_nonneg (p : LaunchParams) : 0 ≤ m_water_init p := by
  unfold m_water_init
  exact mul_nonneg (by norm_num [rho_water])
    (by unfold water_volume; exact le_max_right _ _)

lemma m_air_init_nonneg (p : LaunchParams) : 0 ≤ m_air_init p := by
  unfold m_air_init
  exact mul_nonneg (le_max_right _ _) (by norm_num [rho_air])

/-- C10: for soap amount ≥ 0, along every iterate of the loop body the
propellant masses dip at most `1e-6` below zero while the recomputed total
mass — the divisor of the acceleration computation of that same step —
stays strictly positive, so `ax` and `ay` never divide by zero; and every
state reached by the actual loop is such an iterate. -/
theorem C10_mass_positive (p : LaunchParams) (hs : 0 ≤ p.soap_amount) (n : ℕ) :
    (-1e-6 < ((step p)^[n] (initState p)).m_water ∧
     -1e-6 < ((step p)^[n] (initState p)).m_air ∧
     0 < ((step p)^[n] (initState p)).mass) ∧
    (∃ m ≤ n, loop p n (initState p) = (step p)^[m] (initState p)) := by
  constructor
  · induction n with
    | zero =>
      refine ⟨?_, ?_, ?_⟩
      · show -1e-6 < m_water_init p
        linarith [m_water_init_nonneg p]
      · show -1e-6 < m_air_init p
        linarith [m_air_init_nonneg p]
      · show 0 < mass_init p
        unfold mass_init
        have hdry : (0.15 : ℝ) ≤ dry_mass p := by unfold dry_mass; linarith
        linarith [m_water_init_nonneg p, m_air_init_nonneg p]
    | succ n ih =>
      rw [Function.iterate_succ_apply']
      obtain ⟨hw, ha, -⟩ := ih
      exact stepThrust_mass_inv p hs ((step p)^[n] (initState p)) hw ha
  · exact loop_iterate p n (initState p)

theorem C10_witness :
    (-1e-6 < ((step pEx)^[3] (initState pEx)).m_water ∧
     -1e-6 < ((step pEx)^[3] (initState pEx)).m_air ∧
     0 < ((step pEx)^[3] (initState pEx)).mass) ∧
    (∃ m ≤ 3, loop pEx 3 (initState pEx) = (step pEx)^[m] (initState pEx)) :=
  C10_mass_positive pEx (by norm_num [pEx]) 3

end WaterRocket

namespace ConnectionManager

variable {V : Type _} [DecidableEq V]

/-! ### C7 / C8: broadcast fan-out and the registry no-duplicates invariant -/

lemma broadcastRun_no_fail (fails : V → Bool) :
    ∀ (l : List V) (R : List V), (∀ c ∈ l, fails c = false) →
      broadcastRun fails l R = (R, l) := by
  intro l
  induction l with
  | nil => intro R _; rfl
  | cons c rest ih =>
    intro R h
    have hc : fails c = false := h c (List.mem_cons_self c rest)
    have hrest : ∀ c' ∈ rest, fails c' = false :=
      fun c' hc' => h c' (List.mem_cons_of_mem c hc')
    simp only [broadcastRun, hc, Bool.false_eq_true, if_false,
      ih R hrest]

lemma broadcastRun_append (fails : V → Bool) :
    ∀ (l1 m R : List V), (∀ c ∈ l1, fails c = false) →
      broadcastRun fails (l1 ++ m) R =
        ((broadcastRun fails m R).1, l1 ++ (broadcastRun fails m R).2) := by
  intro l1
  induction l1 with
  | nil => intro m R _; simp
  | cons c rest ih =>
    intro m R h
    have hc : fails c = false := h c (List.mem_cons_self c rest)
    have hrest : ∀ c' ∈ rest, fails c' = false :=
      fun c' hc' => h c' (List.mem_cons_of_mem c hc')
    simp only [List.cons_append, broadcastRun, hc, Bool.false_eq_true,
      if_false, List.append_eq, ih m R hrest]

/-- C7: broadcasting to a duplicate-free registry in which exactly one
viewer `k` fails delivery delivers the message to all other viewers in
registry order (`conns.erase k` lists exactly the other N−1 viewers),
removes exactly `k` from the registry, and — being a total function —
raises no error to the caller. -/
theorem C7_broadcast_single_failure (conns : List V) (k : V) (fails : V → Bool)
    (hnd : conns.Nodup) (hk : k ∈ conns)
    (hf : ∀ c, fails c = true ↔ c = k) :
    (broadcast fails conns).1 = conns.erase k ∧
    (broadcast fails conns).2 = conns.erase k := by
  obtain ⟨l1, l2, rfl⟩ := List.append_of_mem hk
  have hnd' := hnd
  rw [List.nodup_append] at hnd'
  obtain ⟨-, hkl2, hdisj⟩ := hnd'
  have hk1 : k ∉ l1 := fun hmem => hdisj hmem (List.mem_cons_self k l2)
  have hk2 : k ∉ l2 := (List.nodup_cons.mp hkl2).1
  have hf1 : ∀ c ∈ l1, fails c = false := by
    intro c hc
    cases hfc : fails c with
    | false => rfl
    | true => exact absurd (((hf c).mp hfc) ▸ hc) hk1
  have hf2 : ∀ c ∈ l2, fails c = false := by
    intro c hc
    cases hfc : fails c with
    | false => rfl
    | true => exact absurd (((hf c).mp hfc) ▸ hc) hk2
  have herase : (l1 ++ k :: l2).erase k = l1 ++ l2 := by
    rw [List.erase_append_right _ hk1, List.erase_cons_head]
  unfold broadcast
  rw [broadcastRun_append fails l1 (k :: l2) (l1 ++ k :: l2) hf1]
  have hmid : broadcastRun fails (k :: l2) (l1 ++ k :: l2)
      = ((l1 ++ k :: l2).erase k, l2) := by
    have hfk : fails k = true := (hf k).mpr rfl
    simp only [broadcastRun, hfk, if_true]
    have hdis : disconnect k (l1 ++ k :: l2) = (l1 ++ k :: l2).erase k := by
      unfold disconnect
      rw [if_pos hk]
    rw [hdis, broadcastRun_no_fail fails l2 _ hf2]
  rw [hmid, herase]
  exact ⟨rfl, rfl⟩

theorem C7_witness :
    (broadcast (fun c => decide (c = 1)) ([0, 1, 2] : List ℕ)).1
        = ([0, 1, 2] : List ℕ).erase 1 ∧
    (broadcast (fun c => decide (c = 1)) ([0, 1, 2] : List ℕ)).2
        = ([0, 1, 2] : List ℕ).erase 1 :=
  C7_broadcast_single_failure [0, 1, 2] 1 (fun c => decide (c = 1))
    (by decide) (by decide) (fun c => by simp)

/-- C8 counterexample: `connect` appends unconditionally (line 22 of
server.py has no membership check), so connecting the same sink twice from
the empty registry yields a duplicate entry — the no-duplicates invariant
is not preserved by arbitrary operation sequences. -/
theorem C8_counterexample :
    ¬ (runOps [HubOp.connect 0, HubOp.connect 0] ([] : List ℕ)).Nodup := by
  decide

lemma disconnect_nodup (ws : V) {l : List V} (h : l.Nodup) :
    (disconnect ws l).Nodup := by
  unfold disconnect
  split_ifs
  · exact h.erase ws
  · exact h

lemma broadcastRun_fst_nodup (fails : V → Bool) :
    ∀ (l R : List V), R.Nodup → (broadcastRun fails l R).1.Nodup := by
  intro l
  induction l with
  | nil => intro R h; exact h
  | cons c rest ih =>
    intro R h
    unfold broadcastRun
    by_cases hc : fails c = true
    · rw [if_pos hc]
      exact ih (disconnect c R) (disconnect_nodup c h)
    · rw [if_neg hc]
      exact ih R h

/-- C8 (amended): the no-duplicates invariant holds on the empty initial
registry and is preserved by every operation sequence in which each
`connect` adds a sink not currently registered — which is what the server
guarantees, since each connection handler connects its own fresh WebSocket
object exactly once.  `disconnect` and `broadcast` (with its
failure-removal) preserve the invariant unconditionally. -/
theorem C8_registry_nodup (ops : List (HubOp V))
    (hvalid : validFrom ([] : List V) ops = true) :
    (runOps ops ([] : List V)).Nodup := by
  have main : ∀ (ops : List (HubOp V)) (l : List V),
      validFrom l ops = true → l.Nodup → (runOps ops l).Nodup := by
    intro ops
    induction ops with
    | nil => intro l _ h; exact h
    | cons op rest ih =>
      intro l hv hnd
      unfold validFrom at hv
      rw [Bool.and_eq_true] at hv
      simp only [runOps, List.foldl_cons]
      apply ih (applyOp op l) hv.2
      cases op with
      | connect v =>
        have hv' : v ∉ l := by simpa using hv.1
        simp only [applyOp, connect]
        rw [List.nodup_append]
        exact ⟨hnd, List.nodup_singleton v,
          fun a ha hb => by
            rcases List.mem_singleton.mp hb with rfl
            exact hv' ha⟩
      | disconnect v => exact disconnect_nodup v hnd
      | broadcast fails => exact broadcastRun_fst_nodup fails l l hnd
  exact main ops [] hvalid List.nodup_nil

theorem C8_witness :
    (runOps [HubOp.connect 0, HubOp.connect 1,
             HubOp.broadcast (fun c => decide (c = 0)),
             HubOp.disconnect 1] ([] : List ℕ)).Nodup :=
  C8_registry_nodup _ (by decide)

end ConnectionManager

namespace WaterRocket

/-! ### C9: the chat relay of the live channel -/

/-- C9 counterexample: a non-dict inbound frame (here the JSON array `[]`)
makes `data.get("type")` raise `AttributeError`, which the handler's
`except Exception` turns into a disconnect — the connection does **not**
stay open, refuting "any frame of any other shape ... the connection stays
open". -/
theorem C9_counterexample : handleFrame (JVal.arr []) = Except.error () := rfl

/-- C9 (amended): for every inbound **object** frame: if its `type` field is
the string "chat" it is rebroadcast as a chat message whose `user` defaults
to "anon" and whose `text` defaults to "" when the keys are missing (a frame
missing both is rebroadcast as `{user: "anon", text: ""}`); any other object
frame causes no broadcast and the connection stays open (`.ok none`).  A
non-object frame instead terminates the connection (see the
counterexample). -/
theorem C9_chat_relay (kvs : List (String × JVal)) :
    (handleFrame (JVal.obj kvs)
        = if isChat (dictGet kvs ("type"))
          then Except.ok (some (chatMsg (dictGetD kvs ("user") (JVal.str ("anon")))
                                        (dictGetD kvs ("text") (JVal.str ("")))))
          else Except.ok none) ∧
    (isChat (dictGet kvs ("type")) = false →
      handleFrame (JVal.obj kvs) = Except.ok none) ∧
    (isChat (dictGet kvs ("type")) = true →
      dictGet kvs ("user") = none → dictGet kvs ("text") = none →
      handleFrame (JVal.obj kvs)
        = Except.ok (some (chatMsg (JVal.str ("anon")) (JVal.str (""))))) := by
  have h1 : handleFrame (JVal.obj kvs)
      = if isChat (dictGet kvs ("type"))
        then Except.ok (some (chatMsg (dictGetD kvs ("user") (JVal.str ("anon")))
                                      (dictGetD kvs ("text") (JVal.str ("")))))
        else Except.ok none := rfl
  refine ⟨h1, ?_, ?_⟩
  · intro h
    rw [h1, h]
    simp
  · intro hchat hu ht
    rw [h1, hchat]
    simp [dictGetD, hu, ht]

theorem C9_witness :
    handleFrame (JVal.obj [(("type"), JVal.str ("chat"))])
      = Except.ok (some (chatMsg (JVal.str ("anon")) (JVal.str ("")))) :=
  (C9_chat_relay [(("type"), JVal.str ("chat"))]).2.2 rfl rfl rfl

end WaterRocket

namespace WaterRocket

/-! ### Kinematic helper lemmas for the zero-thrust analyses (claim C2) -/

lemma v_rel_nonneg (p : LaunchParams) (s : SimState) : 0 ≤ v_rel p s :=
  Real.sqrt_nonneg _

lemma bottle_area_nonneg (p : LaunchParams) : 0 ≤ bottle_area p := by
  unfold bottle_area
  positivity

lemma drag_nonneg (p : LaunchParams) (s : SimState) : 0 ≤ drag p s := by
  unfold drag rho_air Cd
  have := bottle_area_nonneg p
  positivity

lemma v_rel_add_eps_pos (p : LaunchParams) (s : SimState) :
    0 < v_rel p s + 1e-9 := by
  linarith [v_rel_nonneg p s]

/-- The relative speed is at most the sum of the component magnitudes. -/
lemma v_rel_le (p : LaunchParams) (s : SimState) :
    v_rel p s ≤ |v_rel_x p s| + |s.vy| := by
  unfold v_rel
  have h : (v_rel_x p s) ^ 2 + s.vy ^ 2 ≤ (|v_rel_x p s| + |s.vy|) ^ 2 := by
    have h1 : |v_rel_x p s| ^ 2 = (v_rel_x p s) ^ 2 := sq_abs _
    have h2 : |s.vy| ^ 2 = s.vy ^ 2 := sq_abs _
    nlinarith [abs_nonneg (v_rel_x p s), abs_nonneg s.vy]
  calc Real.sqrt ((v_rel_x p s) ^ 2 + s.vy ^ 2)
      ≤ Real.sqrt ((|v_rel_x p s| + |s.vy|) ^ 2) := Real.sqrt_le_sqrt h
    _ = |v_rel_x p s| + |s.vy| :=
        Real.sqrt_sq (by positivity)

/-- A per-step drag-impulse bound: if the relative speed is at most `R` and
`dt * (½ ρ Cd A) * R ≤ mass`, one Euler step's drag impulse cannot exceed
the momentum scale `mass * (v_rel + ε)`. -/
lemma drag_cond_of (p : LaunchParams) (s : SimState) {R : ℝ}
    (hr : v_rel p s ≤ R)
    (hA : dt * (0.5 * rho_air * Cd * bottle_area p) * R ≤ s.mass) :
    dt * drag p s ≤ s.mass * (v_rel p s + 1e-9) := by
  have hr0 := v_rel_nonneg p s
  have hk0 : 0 ≤ dt * (0.5 * rho_air * Cd * bottle_area p) := by
    unfold dt rho_air Cd
    have := bottle_area_nonneg p
    positivity
  have h1 : dt * (0.5 * rho_air * Cd * bottle_area p) * v_rel p s
      ≤ dt * (0.5 * rho_air * Cd * bottle_area p) * R :=
    mul_le_mul_of_nonneg_left hr hk0
  have h2 : dt * (0.5 * rho_air * Cd * bottle_area p) * v_rel p s ≤ s.mass :=
    le_trans h1 hA
  have hM0 : 0 ≤ s.mass := le_trans (mul_nonneg hk0 hr0) h2
  unfold drag
  nlinarith [mul_le_mul_of_nonneg_right h2 hr0, hM0]

lemma new_vx_of_vrelx_zero (p : LaunchParams) (s : SimState)
    (h : v_rel_x p s = 0) : new_vx p s = s.vx := by
  unfold new_vx acc_x drag_x
  rw [h]
  simp

/-- With zero thrust and a bounded drag impulse, one Euler step keeps a
non-positive vertical velocity non-positive, and gravity pulls it down by at
most `g * dt`. -/
lemma new_vy_bounds (p : LaunchParams) (s : SimState) (hM : 0 < s.mass)
    (hT : s.thrust = 0) (hvy : s.vy ≤ 0)
    (hC : dt * drag p s ≤ s.mass * (v_rel p s + 1e-9)) :
    new_vy p s ≤ 0 ∧ s.vy - g * dt ≤ new_vy p s := by
  have hre := v_rel_add_eps_pos p s
  have hD := drag_nonneg p s
  have heq : new_vy p s = s.vy + (drag_y p s / s.mass) * dt - g * dt := by
    unfold new_vy acc_y
    rw [hT, zero_div]
    ring
  have hdy : drag_y p s = drag p s * (-s.vy) / (v_rel p s + 1e-9) := by
    unfold drag_y
    ring
  have hdynn : 0 ≤ drag_y p s := by
    rw [hdy]
    exact div_nonneg (mul_nonneg hD (by linarith)) (le_of_lt hre)
  constructor
  · have hkey : (drag_y p s / s.mass) * dt ≤ -s.vy := by
      rw [div_mul_eq_mul_div, div_le_iff hM, hdy, div_mul_eq_mul_div,
        div_le_iff hre]
      nlinarith [mul_le_mul_of_nonneg_left hC (neg_nonneg.mpr hvy)]
    have hgdt : 0 ≤ g * dt := by norm_num [g, dt]
    rw [heq]
    linarith
  · rw [heq]
    have h0 : 0 ≤ (drag_y p s / s.mass) * dt :=
      mul_nonneg (div_nonneg hdynn (le_of_lt hM)) (by norm_num [dt])
    linarith

/-- With a bounded drag impulse, one Euler step moves the horizontal
velocity toward the wind speed without overshooting it. -/
lemma new_vx_bounds (p : LaunchParams) (s : SimState) (hM : 0 < s.mass)
    (hvx : s.vx ≤ p.wind_speed_ms)
    (hC : dt * drag p s ≤ s.mass * (v_rel p s + 1e-9)) :
    s.vx ≤ new_vx p s ∧ new_vx p s ≤ p.wind_speed_ms := by
  have hre := v_rel_add_eps_pos p s
  have hD := drag_nonneg p s
  have heq : new_vx p s = s.vx + (drag_x p s / s.mass) * dt := by
    unfold new_vx acc_x
    ring
  have hdx : drag_x p s = drag p s * (p.wind_speed_ms - s.vx) / (v_rel p s + 1e-9) := by
    unfold drag_x v_rel_x
    ring
  have hdxnn : 0 ≤ drag_x p s := by
    rw [hdx]
    exact div_nonneg (mul_nonneg hD (by linarith)) (le_of_lt hre)
  constructor
  · rw [heq]
    have h0 : 0 ≤ (drag_x p s / s.mass) * dt :=
      mul_nonneg (div_nonneg hdxnn (le_of_lt hM)) (by norm_num [dt])
    linarith
  · have hkey : (drag_x p s / s.mass) * dt ≤ p.wind_speed_ms - s.vx := by
      rw [div_mul_eq_mul_div, div_le_iff hM, hdx, div_mul_eq_mul_div,
        div_le_iff hre]
      nlinarith [mul_le_mul_of_nonneg_left hC
        (show (0 : ℝ) ≤ p.wind_speed_ms - s.vx by linarith)]
    rw [heq]
    linarith

/-! ### Thrust-phase facts for the zero-pressure, zero-water configuration -/

lemma stepThrust_ballistic (p : LaunchParams) (s : SimState)
    (hw : ¬ (1e-8 < s.m_water ∧ 0 < nozzle_area p))
    (ha : ¬ (1e-8 < s.m_air ∧ 0 < nozzle_area p)) :
    stepThrust p s = { s with thrust := 0, mass := dry_mass p } := by
  unfold stepThrust
  rw [if_neg hw, if_neg ha]

lemma stepThrust_air_flat (p : LaunchParams) (s : SimState)
    (hw : ¬ (1e-8 < s.m_water ∧ 0 < nozzle_area p))
    (ha : 1e-8 < s.m_air ∧ 0 < nozzle_area p)
    (hdp : ¬ 0 < dp_air p) :
    stepThrust p s = { s with thrust := 0, m_air := 0, mass := dry_mass p } := by
  unfold stepThrust
  rw [if_neg hw, if_pos ha, if_neg hdp]

lemma water_volume_of_zero (p : LaunchParams) (hw : p.water_volume_l = 0) :
    water_volume p = 0 := by
  unfold water_volume
  rw [hw, zero_div]
  exact max_eq_right (min_le_left 0 _)

lemma m_water_init_of_zero (p : LaunchParams) (hw : p.water_volume_l = 0) :
    m_water_init p = 0 := by
  unfold m_water_init
  rw [water_volume_of_zero p hw, mul_zero]

/-- With no water, the full bottle is the air pocket; if the trapped-air
mass is above the phase epsilon, the bottle volume is at least `1e-9`. -/
lemma bottle_volume_of_m_air (p : LaunchParams) (hwv : water_volume p = 0)
    (h : (1e-8 : ℝ) < m_air_init p) : (1e-9 : ℝ) ≤ bottle_volume p := by
  unfold m_air_init init_air_volume rho_air at h
  rw [hwv, sub_zero] at h
  rcases le_total (bottle_volume p) 0 with hb | hb
  · rw [max_eq_right hb] at h
    norm_num at h
  · rw [max_eq_left hb] at h
    nlinarith

/-- With zero gauge pressure and no water, the air-phase volume ratio is 1
and the excess pressure is zero: the air phase produces no thrust. -/
lemma dp_air_zero (p : LaunchParams) (hpsi : p.air_pressure_psi = 0)
    (hb : (1e-9 : ℝ) ≤ bottle_volume p) (hwv : water_volume p = 0) :
    dp_air p = 0 := by
  unfold dp_air p_air_val pressure_air_phase
  have hai : air_vol_init p = bottle_volume p := by
    unfold air_vol_init init_air_volume
    rw [hwv, sub_zero]
    exact max_eq_left hb
  rw [hai, div_self (by linarith : bottle_volume p ≠ 0), rpow_eq,
    Real.one_rpow, mul_one]
  unfold p_abs_init
  rw [hpsi]
  norm_num

end WaterRocket

namespace WaterRocket

/-! ### C2 (amended): zero pressure and zero water keep the rocket at rest -/

/-- Propellant-mass invariant of the zero-pressure, zero-water
configuration: no water, and the trapped air either untouched or already
zeroed by the first flat air-phase step. -/
def ZeroThrustInv (p : LaunchParams) (s : SimState) : Prop :=
  s.m_water = 0 ∧ (s.m_air = m_air_init p ∨ s.m_air = 0)

lemma zeroThrust_stepThrust (p : LaunchParams) (hpsi : p.air_pressure_psi = 0)
    (hwv : water_volume p = 0) (s : SimState) (hI : ZeroThrustInv p s) :
    ZeroThrustInv p (stepThrust p s) ∧ (stepThrust p s).thrust = 0 ∧
    (stepThrust p s).mass = dry_mass p := by
  obtain ⟨hw, ha⟩ := hI
  have hnw : ¬ (1e-8 < s.m_water ∧ 0 < nozzle_area p) := by
    rintro ⟨h1, -⟩
    rw [hw] at h1
    norm_num at h1
  by_cases hq : 1e-8 < s.m_air ∧ 0 < nozzle_area p
  · have hma : s.m_air = m_air_init p := by
      rcases ha with h | h
      · exact h
      · rw [h] at hq
        exact absurd hq.1 (by norm_num)
    have hmainit : (1e-8 : ℝ) < m_air_init p := by
      rw [← hma]
      exact hq.1
    have hb : (1e-9 : ℝ) ≤ bottle_volume p :=
      bottle_volume_of_m_air p hwv hmainit
    have hdp : dp_air p = 0 := dp_air_zero p hpsi hb hwv
    rw [stepThrust_air_flat p s hnw hq (by rw [hdp]; norm_num)]
    exact ⟨⟨hw, Or.inr rfl⟩, rfl, rfl⟩
  · rw [stepThrust_ballistic p s hnw hq]
    exact ⟨⟨hw, ha⟩, rfl, rfl⟩

lemma zeroThrust_iterate (p : LaunchParams) (hpsi : p.air_pressure_psi = 0)
    (hwat : p.water_volume_l = 0) :
    ∀ n : ℕ, ZeroThrustInv p ((step p)^[n] (initState p)) ∧
      ((step p)^[n] (initState p)).thrust = 0 := by
  have hwv := water_volume_of_zero p hwat
  intro n
  induction n with
  | zero =>
    exact ⟨⟨m_water_init_of_zero p hwat, Or.inl rfl⟩, rfl⟩
  | succ n ih =>
    rw [Function.iterate_succ_apply']
    obtain ⟨hI, -⟩ := ih
    obtain ⟨hI', hT', -⟩ := zeroThrust_stepThrust p hpsi hwv _ hI
    exact ⟨hI', hT'⟩

/-- Full at-rest invariant of the zero-pressure, zero-water, zero-wind
configuration: the projectile never gains horizontal motion, never rises
above the pad, and every recorded sample is zero. -/
def RestInv (p : LaunchParams) (s : SimState) : Prop :=
  ZeroThrustInv p s ∧ s.vx = 0 ∧ s.x = 0 ∧ s.vy ≤ 0 ∧ -s.vy ≤ g * s.t ∧
  s.y ≤ 0 ∧ s.airborne = false ∧ (∀ v ∈ s.ys, v = 0) ∧
  (∀ v ∈ s.xs, v = 0) ∧ 0 ≤ s.t

lemma restInv_step (p : LaunchParams) (hpsi : p.air_pressure_psi = 0)
    (hwv : water_volume p = 0) (hsoap : 0 ≤ p.soap_amount)
    (hwind : p.wind_speed_ms = 0)
    (hA : dt * (0.5 * rho_air * Cd * bottle_area p) * (g * (t_max + dt))
        ≤ dry_mass p)
    (s : SimState) (hI : RestInv p s) (ht : s.t < t_max) :
    RestInv p (step p s) ∧ ¬ breakCond (step p s) := by
  obtain ⟨hZ, hvx, hx, hvy, hvyb, hy, hab, hys, hxs, ht0⟩ := hI
  obtain ⟨hZ', hT', hM'⟩ := zeroThrust_stepThrust p hpsi hwv s hZ
  have hdry : (0.15 : ℝ) ≤ dry_mass p := by unfold dry_mass; linarith
  have hMpos : 0 < (stepThrust p s).mass := by rw [hM']; linarith
  have h1vx := stepThrust_vx p s
  have h1vy := stepThrust_vy p s
  have h1x := stepThrust_x p s
  have h1y := stepThrust_y p s
  have hvrx : v_rel_x p (stepThrust p s) = 0 := by
    unfold v_rel_x
    rw [h1vx, hvx, hwind, sub_zero]
  have hvy1 : (stepThrust p s).vy ≤ 0 := by rw [h1vy]; exact hvy
  have hvrle : v_rel p (stepThrust p s) ≤ g * (t_max + dt) := by
    have hvr : v_rel p (stepThrust p s) = -(stepThrust p s).vy := by
      unfold v_rel
      rw [hvrx,
        show (0 : ℝ) ^ 2 + (stepThrust p s).vy ^ 2 = ((stepThrust p s).vy) ^ 2
          by ring,
        Real.sqrt_sq_eq_abs, abs_of_nonpos hvy1]
    rw [hvr, h1vy]
    have h2 : g * s.t ≤ g * (t_max + dt) := by
      apply mul_le_mul_of_nonneg_left _ (by norm_num [g])
      have : (0 : ℝ) < dt := by norm_num [dt]
      linarith
    linarith
  have hC : dt * drag p (stepThrust p s)
      ≤ (stepThrust p s).mass * (v_rel p (stepThrust p s) + 1e-9) := by
    apply drag_cond_of p (stepThrust p s) hvrle
    rw [hM']
    exact hA
  have hvx' : new_vx p (stepThrust p s) = 0 := by
    rw [new_vx_of_vrelx_zero p _ hvrx, h1vx, hvx]
  obtain ⟨hvy'le, hvy'ge⟩ := new_vy_bounds p (stepThrust p s) hMpos hT' hvy1 hC
  have hx' : new_x p (stepThrust p s) = 0 := by
    unfold new_x
    rw [h1x, hx, hvx', zero_add, zero_mul]
  have hy' : new_y p (stepThrust p s) ≤ 0 := by
    unfold new_y
    rw [h1y]
    have h0 : new_vy p (stepThrust p s) * dt ≤ 0 :=
      mul_nonpos_of_nonpos_of_nonneg hvy'le (by norm_num [dt])
    linarith
  constructor
  · refine ⟨hZ', ?_, ?_, ?_, ?_, ?_, ?_, ?_, ?_, ?_⟩
    · rw [step_vx]; exact hvx'
    · rw [step_x]; exact hx'
    · rw [step_vy]; exact hvy'le
    · rw [step_vy, step_t]
      have hge : (stepThrust p s).vy - g * dt ≤ new_vy p (stepThrust p s) :=
        hvy'ge
      rw [h1vy] at hge
      have hgt : g * (s.t + dt) = g * s.t + g * dt := by ring
      rw [hgt]
      linarith
    · rw [step_y]; exact hy'
    · rw [step_airborne, if_neg (not_lt.mpr hy')]; exact hab
    · rw [step_ys]
      intro v hv
      rcases List.mem_append.mp hv with hv | hv
      · exact hys v hv
      · rcases List.mem_singleton.mp hv with rfl
        exact max_eq_right hy'
    · rw [step_xs]
      intro v hv
      rcases List.mem_append.mp hv with hv | hv
      · exact hxs v hv
      · rcases List.mem_singleton.mp hv with rfl
        exact hx'
    · rw [step_t]
      have : (0 : ℝ) ≤ dt := by norm_num [dt]
      linarith
  · intro hb
    obtain ⟨hb1, -, -⟩ := hb
    rw [step_airborne, if_neg (not_lt.mpr hy'), hab] at hb1
    exact Bool.false_ne_true hb1

lemma restInv_loop (p : LaunchParams) (hpsi : p.air_pressure_psi = 0)
    (hwv : water_volume p = 0) (hsoap : 0 ≤ p.soap_amount)
    (hwind : p.wind_speed_ms = 0)
    (hA : dt * (0.5 * rho_air * Cd * bottle_area p) * (g * (t_max + dt))
        ≤ dry_mass p) :
    ∀ (n : ℕ) (s : SimState), RestInv p s → RestInv p (loop p n s) := by
  intro n
  induction n with
  | zero => intro s h; exact h
  | succ n ih =>
    intro s h
    by_cases ht : s.t < t_max
    · obtain ⟨h', hnb⟩ := restInv_step p hpsi hwv hsoap hwind hA s h ht
      rw [loop_succ, if_pos ht, if_neg hnb]
      exact ih _ h'
    · rwa [loop_of_not_lt p ht]

/-- C2 (amended): with zero gauge pressure, zero water volume, **zero wind**
and a bottle cross-section small enough that a single Euler step's drag
impulse cannot reverse the descent
(`dt * (½ ρ_air Cd A_bottle) * (g * (t_max + dt)) ≤ dry_mass`), the thrust
is zero at every step and the trajectory is a pure drop from height 0:
`max_altitude_m = 0` and `range_m = 0`.  (With nonzero wind — or extreme
bottle geometry — wind drag moves the resting projectile, see the
counterexample; thrust is zero regardless of wind, see
`zeroThrust_iterate`.) -/
theorem C2_zero_input_rest (p : LaunchParams)
    (hpsi : p.air_pressure_psi = 0) (hwat : p.water_volume_l = 0)
    (hwind : p.wind_speed_ms = 0) (hsoap : 0 ≤ p.soap_amount)
    (hA : dt * (0.5 * rho_air * Cd * bottle_area p) * (g * (t_max + dt))
        ≤ dry_mass p) :
    (∀ n : ℕ, ((step p)^[n] (initState p)).thrust = 0) ∧
    (simulate_flight p).max_altitude_m = 0 ∧
    (simulate_flight p).range_m = 0 := by
  have hwv := water_volume_of_zero p hwat
  have hInit : RestInv p (initState p) := by
    refine ⟨⟨m_water_init_of_zero p hwat, Or.inl rfl⟩, rfl, rfl, le_refl 0,
      ?_, le_refl 0, rfl, ?_, ?_, le_refl 0⟩
    · show -(0 : ℝ) ≤ g * (initState p).t
      rw [initState_t, mul_zero]
      norm_num
    · intro v hv
      exact absurd hv (List.not_mem_nil v)
    · intro v hv
      exact absurd hv (List.not_mem_nil v)
  have hFin : RestInv p (finalState p) :=
    restInv_loop p hpsi hwv hsoap hwind hA 12000 (initState p) hInit
  obtain ⟨-, -, -, -, -, -, -, hys, hxs, -⟩ := hFin
  refine ⟨fun n => (zeroThrust_iterate p hpsi hwat n).2, ?_, ?_⟩
  · rw [simulate_flight_alt]
    rcases eq_or_ne (finalState p).ys ([] : List ℝ) with h | h
    · rw [if_pos h]
    · rw [if_neg h, pyMax_eq_zero hys, roundTo_zero]
  · rw [simulate_flight_range]
    rcases eq_or_ne (finalState p).xs ([] : List ℝ) with h | h
    · rw [if_pos h]
    · rw [if_neg h, getLastD_zero_of_all_zero _ hxs, roundTo_zero]

/-- Witness parameters for C2: 1 L bottle, 1 cm diameters, no water, no
pressure, no wind. -/
noncomputable def pC2 : LaunchParams :=
  { bottle_volume_l := 1, bottle_diameter_cm := 1, nozzle_diameter_cm := 1,
    water_volume_l := 0, air_pressure_psi := 0, soap_amount := 0,
    wind_speed_ms := 0, temperature_c := 20, player := ("r"),
    events_enabled := true }

theorem C2_witness :
    (pC2.air_pressure_psi = 0 ∧ pC2.water_volume_l = 0 ∧
     pC2.wind_speed_ms = 0 ∧ 0 ≤ pC2.soap_amount ∧
     dt * (0.5 * rho_air * Cd * bottle_area pC2) * (g * (t_max + dt))
        ≤ dry_mass pC2) ∧
    ((∀ n : ℕ, ((step pC2)^[n] (initState pC2)).thrust = 0) ∧
     (simulate_flight pC2).max_altitude_m = 0 ∧
     (simulate_flight pC2).range_m = 0) := by
  have hA : dt * (0.5 * rho_air * Cd * bottle_area pC2) * (g * (t_max + dt))
      ≤ dry_mass pC2 := by
    unfold dt rho_air Cd bottle_area t_max g dry_mass pC2
    nlinarith [Real.pi_lt_d2, Real.pi_gt_three]
  exact ⟨⟨rfl, rfl, rfl, by norm_num [pC2], hA⟩,
    C2_zero_input_rest pC2 rfl rfl rfl (by norm_num [pC2]) hA⟩

end WaterRocket

namespace WaterRocket

/-! ### C2 counterexample: with wind, the grounded rocket drifts and
`range_m` is nonzero even with zero pressure and zero water -/

/-- Counterexample parameters: zero pressure, zero water, 20 m/s wind. -/
noncomputable def pCE : LaunchParams :=
  { bottle_volume_l := 1, bottle_diameter_cm := 1, nozzle_diameter_cm := 1,
    water_volume_l := 0, air_pressure_psi := 0, soap_amount := 0,
    wind_speed_ms := 20, temperature_c := 20, player := ("x"),
    events_enabled := true }

lemma pCE_m_water0 : m_water_init pCE = 0 := m_water_init_of_zero pCE rfl

lemma pCE_dry : dry_mass pCE = 0.15 := by
  unfold dry_mass
  norm_num [pCE]

lemma pCE_area_lb : (7.85e-5 : ℝ) ≤ bottle_area pCE := by
  unfold bottle_area
  rw [show pCE.bottle_diameter_cm = (1 : ℝ) from rfl]
  nlinarith [Real.pi_gt_d2]

lemma pCE_area_ub : bottle_area pCE ≤ 7.875e-5 := by
  unfold bottle_area
  rw [show pCE.bottle_diameter_cm = (1 : ℝ) from rfl]
  nlinarith [Real.pi_lt_d2]

/-- The wind-drift invariant, after at least one step: no propellant, a
horizontal velocity trapped in `[3e-4, 20]`, a descending projectile below
the pad, never airborne, and a horizontal position that grows at least
linearly with time (the last recorded sample being the current position). -/
def DriftInv (s : SimState) : Prop :=
  s.m_water = 0 ∧ s.m_air = 0 ∧ 3e-4 ≤ s.vx ∧ s.vx ≤ 20 ∧ s.vy ≤ 0 ∧
  -s.vy ≤ g * s.t ∧ s.y ≤ 0 ∧ s.airborne = false ∧
  3e-4 * s.t ≤ s.x ∧ s.xs.getLast? = some s.x ∧ 0 ≤ s.t

lemma driftInv_step (s : SimState) (hI : DriftInv s) (ht : s.t < t_max) :
    DriftInv (step pCE s) ∧ ¬ breakCond (step pCE s) := by
  obtain ⟨hmw, hma, hvxl, hvxu, hvy, hvyb, hy, hab, hxlb, hxlast, ht0⟩ := hI
  have hnw : ¬ (1e-8 < s.m_water ∧ 0 < nozzle_area pCE) := by
    rintro ⟨h, -⟩
    rw [hmw] at h
    norm_num at h
  have hna : ¬ (1e-8 < s.m_air ∧ 0 < nozzle_area pCE) := by
    rintro ⟨h, -⟩
    rw [hma] at h
    norm_num at h
  have hsT : stepThrust pCE s = { s with thrust := 0, mass := dry_mass pCE } :=
    stepThrust_ballistic pCE s hnw hna
  have hTvx := stepThrust_vx pCE s
  have hTvy := stepThrust_vy pCE s
  have hTx := stepThrust_x pCE s
  have hTy := stepThrust_y pCE s
  have hTmass : (stepThrust pCE s).mass = 0.15 := by
    rw [hsT]
    exact pCE_dry
  have hTthrust : (stepThrust pCE s).thrust = 0 := by rw [hsT]
  have hMpos : 0 < (stepThrust pCE s).mass := by rw [hTmass]; norm_num
  have hvy1 : (stepThrust pCE s).vy ≤ 0 := by rw [hTvy]; exact hvy
  have habs1 : |v_rel_x pCE (stepThrust pCE s)| ≤ 20 := by
    unfold v_rel_x
    rw [hTvx, show pCE.wind_speed_ms = (20 : ℝ) from rfl, abs_le]
    constructor <;> linarith
  have habs2 : |(stepThrust pCE s).vy| ≤ 589 := by
    rw [hTvy, abs_of_nonpos hvy]
    have hs60 : s.t ≤ 60 := by
      rw [show t_max = (60 : ℝ) from rfl] at ht
      linarith
    have : g * s.t ≤ 589 := by
      unfold g
      nlinarith
    linarith
  have hvrle : v_rel pCE (stepThrust pCE s) ≤ 609 := by
    have := v_rel_le pCE (stepThrust pCE s)
    linarith
  have hC : dt * drag pCE (stepThrust pCE s)
      ≤ (stepThrust pCE s).mass * (v_rel pCE (stepThrust pCE s) + 1e-9) := by
    apply drag_cond_of pCE (stepThrust pCE s) hvrle
    rw [hTmass]
    unfold dt rho_air Cd
    nlinarith [pCE_area_ub, bottle_area_nonneg pCE]
  obtain ⟨hvxge, hvxle⟩ := new_vx_bounds pCE (stepThrust pCE s) hMpos
    (by rw [hTvx]; exact hvxu) hC
  obtain ⟨hvy'le, hvy'ge⟩ := new_vy_bounds pCE (stepThrust pCE s) hMpos
    hTthrust hvy1 hC
  rw [hTvx] at hvxge
  rw [hTvy] at hvy'ge
  have hnv3 : (3e-4 : ℝ) ≤ new_vx pCE (stepThrust pCE s) := le_trans hvxl hvxge
  have hy' : new_y pCE (stepThrust pCE s) ≤ 0 := by
    unfold new_y
    rw [hTy]
    have h0 : new_vy pCE (stepThrust pCE s) * dt ≤ 0 :=
      mul_nonpos_of_nonpos_of_nonneg hvy'le (by norm_num [dt])
    linarith
  have hdtnn : (0 : ℝ) ≤ dt := by norm_num [dt]
  constructor
  · refine ⟨?_, ?_, ?_, ?_, ?_, ?_, ?_, ?_, ?_, ?_, ?_⟩
    · rw [step_m_water, hsT]; exact hmw
    · rw [step_m_air, hsT]; exact hma
    · rw [step_vx]; exact hnv3
    · rw [step_vx]; exact hvxle
    · rw [step_vy]; exact hvy'le
    · rw [step_vy, step_t]
      have hgt : g * (s.t + dt) = g * s.t + g * dt := by ring
      rw [hgt]
      linarith
    · rw [step_y]; exact hy'
    · rw [step_airborne, if_neg (not_lt.mpr hy')]; exact hab
    · rw [step_x, step_t]
      unfold new_x
      rw [hTx]
      have h1 : (3e-4 : ℝ) * dt ≤ new_vx pCE (stepThrust pCE s) * dt :=
        mul_le_mul_of_nonneg_right hnv3 hdtnn
      nlinarith
    · rw [step_xs, step_x]
      exact List.getLast?_concat _
    · rw [step_t]
      linarith
  · intro hb
    obtain ⟨hb1, -, -⟩ := hb
    rw [step_airborne, if_neg (not_lt.mpr hy'), hab] at hb1
    exact Bool.false_ne_true hb1

lemma driftInv_loop :
    ∀ (n : ℕ) (s : SimState), DriftInv s → t_max ≤ s.t + n * dt →
      DriftInv (loop pCE n s) ∧ t_max ≤ (loop pCE n s).t := by
  intro n
  induction n with
  | zero =>
    intro s h harith
    rw [loop_zero]
    push_cast at harith
    exact ⟨h, by linarith⟩
  | succ n ih =>
    intro s h harith
    by_cases ht : s.t < t_max
    · obtain ⟨h', hnb⟩ := driftInv_step s h ht
      rw [loop_succ, if_pos ht, if_neg hnb]
      apply ih _ h'
      rw [step_t]
      push_cast at harith ⊢
      linarith
    · rw [loop_of_not_lt pCE ht]
      exact ⟨h, not_lt.mp ht⟩

/-- After the first step the drift invariant holds: the first iteration
takes the flat air-phase branch (ratio 1, zero excess pressure), zeroes the
trapped-air mass, and the wind drag gives the resting projectile a
horizontal kick of at least `3e-4` m/s. -/
lemma pCE_base :
    DriftInv (step pCE (initState pCE)) ∧
    ¬ breakCond (step pCE (initState pCE)) := by
  have hTinit : stepThrust pCE (initState pCE)
      = { initState pCE with thrust := 0, m_air := 0, mass := dry_mass pCE } := by
    apply stepThrust_air_flat
    · rintro ⟨h, -⟩
      rw [show (initState pCE).m_water = m_water_init pCE from rfl,
        pCE_m_water0] at h
      norm_num at h
    · constructor
      · show (1e-8 : ℝ) < m_air_init pCE
        unfold m_air_init init_air_volume rho_air
        rw [water_volume_of_zero pCE rfl, sub_zero,
          max_eq_left (by unfold bottle_volume; norm_num [pCE])]
        unfold bottle_volume
        norm_num [pCE]
      · exact nozzle_area_pos pCE (by norm_num [pCE])
    · rw [dp_air_zero pCE rfl (by unfold bottle_volume; norm_num [pCE])
        (water_volume_of_zero pCE rfl)]
      norm_num
  have hT0vx : (stepThrust pCE (initState pCE)).vx = 0 := by rw [hTinit]; rfl
  have hT0vy : (stepThrust pCE (initState pCE)).vy = 0 := by rw [hTinit]; rfl
  have hT0x : (stepThrust pCE (initState pCE)).x = 0 := by rw [hTinit]; rfl
  have hT0y : (stepThrust pCE (initState pCE)).y = 0 := by rw [hTinit]; rfl
  have hT0thrust : (stepThrust pCE (initState pCE)).thrust = 0 := by
    rw [hTinit]
  have hT0mass : (stepThrust pCE (initState pCE)).mass = 0.15 := by
    rw [hTinit]
    exact pCE_dry
  have hvrx0 : v_rel_x pCE (stepThrust pCE (initState pCE)) = -20 := by
    unfold v_rel_x
    rw [hT0vx, show pCE.wind_speed_ms = (20 : ℝ) from rfl]
    norm_num
  have hvr0 : v_rel pCE (stepThrust pCE (initState pCE)) = 20 := by
    unfold v_rel
    rw [hvrx0, hT0vy,
      show ((-20 : ℝ)) ^ 2 + (0 : ℝ) ^ 2 = 20 ^ 2 by norm_num]
    exact Real.sqrt_sq (by norm_num)
  have hdrag0 : drag pCE (stepThrust pCE (initState pCE))
      = 122.5 * bottle_area pCE := by
    unfold drag rho_air Cd
    rw [hvr0]
    ring
  have hdx0 : drag_x pCE (stepThrust pCE (initState pCE))
      = 122.5 * bottle_area pCE * (20 / (20 + 1e-9)) := by
    unfold drag_x
    rw [hdrag0, hvrx0, hvr0]
    ring
  have hnvx0 : new_vx pCE (stepThrust pCE (initState pCE))
      = 122.5 * bottle_area pCE * (20 / (20 + 1e-9)) / 0.15 * dt := by
    unfold new_vx acc_x
    rw [hdx0, hT0vx, hT0mass]
    ring
  have h20lb : (0.9999 : ℝ) ≤ 20 / (20 + 1e-9) := by
    rw [le_div_iff (by norm_num : (0 : ℝ) < 20 + 1e-9)]
    norm_num
  have h20ub : (20 : ℝ) / (20 + 1e-9) ≤ 1 := by
    rw [div_le_one (by norm_num : (0 : ℝ) < 20 + 1e-9)]
    norm_num
  have hnvx0_lb : (3e-4 : ℝ) ≤ new_vx pCE (stepThrust pCE (initState pCE)) := by
    rw [hnvx0]
    have hAr : (7.85e-5 : ℝ) * 0.9999
        ≤ bottle_area pCE * (20 / (20 + 1e-9)) :=
      mul_le_mul pCE_area_lb h20lb (by norm_num)
        (le_trans (by norm_num) pCE_area_lb)
    have hfac : 122.5 * bottle_area pCE * (20 / (20 + 1e-9)) / 0.15 * dt
        = (bottle_area pCE * (20 / (20 + 1e-9))) * (122.5 / 0.15 * dt) := by
      ring
    rw [hfac]
    unfold dt
    nlinarith [hAr]
  have hnvx0_ub : new_vx pCE (stepThrust pCE (initState pCE)) ≤ 20 := by
    rw [hnvx0]
    have hAr : bottle_area pCE * (20 / (20 + 1e-9)) ≤ 7.875e-5 :=
      le_trans (mul_le_of_le_one_right (bottle_area_nonneg pCE) h20ub)
        pCE_area_ub
    have hAnn : 0 ≤ bottle_area pCE * (20 / (20 + 1e-9)) :=
      mul_nonneg (bottle_area_nonneg pCE) (by positivity)
    have hfac : 122.5 * bottle_area pCE * (20 / (20 + 1e-9)) / 0.15 * dt
        = (bottle_area pCE * (20 / (20 + 1e-9))) * (122.5 / 0.15 * dt) := by
      ring
    rw [hfac]
    unfold dt
    nlinarith [hAr, hAnn]
  have hdy0 : drag_y pCE (stepThrust pCE (initState pCE)) = 0 := by
    unfold drag_y
    rw [hT0vy, zero_div, mul_zero]
  have hnvy0 : new_vy pCE (stepThrust pCE (initState pCE)) = -(g * dt) := by
    unfold new_vy acc_y
    rw [hT0thrust, hdy0, hT0vy]
    simp only [zero_div]
    ring
  have hny0 : new_y pCE (stepThrust pCE (initState pCE)) = -(g * dt) * dt := by
    unfold new_y
    rw [hT0y, hnvy0]
    ring
  have hny0n : ¬ 0 < new_y pCE (stepThrust pCE (initState pCE)) := by
    rw [hny0]
    norm_num [g, dt]
  have hnx0 : new_x pCE (stepThrust pCE (initState pCE))
      = new_vx pCE (stepThrust pCE (initState pCE)) * dt := by
    unfold new_x
    rw [hT0x]
    ring
  constructor
  · refine ⟨?_, ?_, ?_, ?_, ?_, ?_, ?_, ?_, ?_, ?_, ?_⟩
    · rw [step_m_water, hTinit]
      exact pCE_m_water0
    · rw [step_m_air, hTinit]
    · rw [step_vx]; exact hnvx0_lb
    · rw [step_vx]; exact hnvx0_ub
    · rw [step_vy, hnvy0]
      norm_num [g, dt]
    · rw [step_vy, step_t, hnvy0, initState_t, zero_add]
      norm_num [g, dt]
    · rw [step_y, hny0]
      norm_num [g, dt]
    · rw [step_airborne, if_neg hny0n]
      rfl
    · rw [step_x, step_t, hnx0, initState_t, zero_add]
      have hdtnn : (0 : ℝ) ≤ dt := by norm_num [dt]
      nlinarith [mul_le_mul_of_nonneg_right hnvx0_lb hdtnn]
    · rw [step_xs, step_x]
      exact List.getLast?_concat _
    · rw [step_t, initState_t, zero_add]
      norm_num [dt]
  · intro hb
    obtain ⟨hb1, -, -⟩ := hb
    rw [step_airborne, if_neg hny0n] at hb1
    exact Bool.false_ne_true hb1

/-- C2 counterexample: with zero air pressure and zero water volume but a
20 m/s wind (documented range: any signed wind speed), the grounded rocket
is dragged horizontally along the pad for the full 60 s run, so
`range_m ≠ 0` — refuting "max_altitude_m = 0 and range_m = 0" for arbitrary
wind. -/
theorem C2_counterexample : (simulate_flight pCE).range_m ≠ 0 := by
  obtain ⟨hbase, hnb0⟩ := pCE_base
  have h0 : finalState pCE = loop pCE 11999 (step pCE (initState pCE)) := by
    rw [finalState, show (12000 : ℕ) = 11999 + 1 from rfl, loop_succ,
      if_pos (initState_t_lt pCE), if_neg hnb0]
  have harith : t_max ≤ (step pCE (initState pCE)).t + (11999 : ℕ) * dt := by
    rw [step_t, initState_t, zero_add]
    push_cast
    norm_num [t_max, dt]
  obtain ⟨hIf, htf⟩ := driftInv_loop 11999 _ hbase harith
  rw [← h0] at hIf htf
  obtain ⟨-, -, -, -, -, -, -, -, hxlb, hxlast, -⟩ := hIf
  have hx18 : (0.018 : ℝ) ≤ (finalState pCE).x := by
    have h60 : (60 : ℝ) ≤ (finalState pCE).t := by
      rw [show t_max = (60 : ℝ) from rfl] at htf
      exact htf
    nlinarith
  have hlastD : (finalState pCE).xs.getLastD 0 = (finalState pCE).x := by
    rw [List.getLastD_eq_getLast?, hxlast]
    rfl
  rw [simulate_flight_range, if_neg (finalState_xs_ne_nil pCE), hlastD]
  exact ne_of_gt (roundTo_two_pos hx18)

end WaterRocket
